import Mathlib

/-!
# Verification of `master_study/001_make_folders_opt_flathv_75_1500_withBB_chroma5_eol_bbb_2228.py`

This file shallowly embeds the configuration-construction part of the script:
Python dictionaries are modelled as cells of an explicit heap (an association
list from allocation addresses to dictionaries), because several claims are
about aliasing (which variants share mutable structure with which).  Values in
a dictionary are either scalar leaves (ints, floats, bools, strings, `None`)
or references to other dictionary cells, exactly as in CPython, where a dict
entry holding a dict holds a reference to the dict object.

Python float literals are embedded as exact rationals (`vfloat`), and the one
non-literal float expression of the script, `1.4e11 * (1960 / 2216) ** 0.5`,
is embedded injectively as `vfloatSqrt a b`, standing for `a * b ** 0.5`.
No claim inspects the numeric value of any float.
-/

set_option maxHeartbeats 1000000
set_option maxRecDepth 8000

namespace MakeFolders

/-- A scalar (non-container) Python value appearing in the script. -/
inductive Leaf where
  | vint (n : Int)
  | vstr (s : String)
  | vbool (b : Bool)
  | vfloat (q : ℚ)
  | vfloatSqrt (a b : ℚ)
  | vnone
deriving DecidableEq

/-- A Python value stored in a dict entry: a scalar, or a reference to a
dict object living at a heap address. -/
inductive Val where
  | leaf (l : Leaf)
  | ref (a : Nat)
deriving DecidableEq

/-- A Python dict: insertion-ordered association list from string keys to
values (the script only ever uses string keys). -/
abbrev Dict := List (String × Val)

/-- A pure tree of nested dicts, used to describe dict literals and the
result of reading a dict structure out of the heap. -/
inductive Tree where
  | leaf (l : Leaf)
  | node (kids : List (String × Tree))

/-- The heap: allocated cells (address, dict) in allocation order, plus the
next fresh address. -/
structure Heap where
  cells : List (Nat × Dict)
  next : Nat
deriving DecidableEq

/-- Look an address up in a cell list (first match). -/
def assocFind : List (Nat × Dict) → Nat → Option Dict
  | [], _ => none
  | (b, d) :: rest, a => if b = a then some d else assocFind rest a

/-- Dereference a heap address. -/
def Heap.get (h : Heap) (a : Nat) : Option Dict :=
  assocFind h.cells a

/-- `d[key]` for a Python dict (`none` models a `KeyError`). -/
def dictGet : Dict → String → Option Val
  | [], _ => none
  | (k, v) :: rest, key => if k = key then some v else dictGet rest key

/-- `key in d` for a Python dict. -/
def dictHasKey (d : Dict) (key : String) : Bool :=
  (dictGet d key).isSome

/-- `d[key] = v` for a Python dict: replace in place if the key exists
(keeping insertion order), else append the new entry at the end. -/
def dictSet (d : Dict) (key : String) (v : Val) : Dict :=
  if dictHasKey d key then d.map (fun p => if p.1 = key then (p.1, v) else p)
  else d ++ [(key, v)]

/-- `obj[key] = v` where `obj` is the dict at address `a`: the heap cell is
mutated in place, every other cell is untouched. -/
def Heap.set (h : Heap) (a : Nat) (key : String) (v : Val) : Heap :=
  ⟨h.cells.map (fun c => if c.1 = a then (c.1, dictSet c.2 key v) else c), h.next⟩

/-- Allocate a fresh dict object, returning its address. -/
def Heap.alloc (h : Heap) (d : Dict) : Heap × Nat :=
  (⟨h.cells ++ [(h.next, d)], h.next + 1⟩, h.next)

mutual

/-- Materialize a dict-literal tree in the heap (inner dicts are allocated
before the dicts containing them, as in CPython evaluation order). -/
def writeVal (h : Heap) : Tree → Heap × Val
  | .leaf l => (h, .leaf l)
  | .node kids =>
      let p := writeKids h kids
      let q := p.1.alloc p.2
      (q.1, .ref q.2)

/-- Materialize the entries of a dict literal, left to right. -/
def writeKids (h : Heap) : List (String × Tree) → Heap × Dict
  | [] => (h, [])
  | (k, t) :: rest =>
      let p := writeVal h t
      let q := writeKids p.1 rest
      (q.1, (k, p.2) :: q.2)

end

/-- Read the trees of all entries of a dict, given a reader for values. -/
def readKidsAux (f : Val → Option Tree) : Dict → Option (List (String × Tree))
  | [] => some []
  | (k, v) :: rest =>
      match f v, readKidsAux f rest with
      | some t, some l => some ((k, t) :: l)
      | _, _ => none

/-- Read the whole tree of dicts reachable from a value, with fuel bounding
the dereferencing depth (our heaps are acyclic, so enough fuel always
exists). -/
def readVal (h : Heap) : Nat → Val → Option Tree
  | _, .leaf l => some (.leaf l)
  | 0, .ref _ => none
  | fuel + 1, .ref a =>
      match h.get a with
      | none => none
      | some d => (readKidsAux (readVal h fuel) d).map .node

/-- Read the trees of all entries of a dict at a given fuel. -/
def readKids (h : Heap) (fuel : Nat) (d : Dict) : Option (List (String × Tree)) :=
  readKidsAux (readVal h fuel) d

/-- `copy.deepcopy` of a dict value: read the whole reachable structure and
materialize a fresh copy.  On the (tree-shaped) structures this script
copies, this coincides with CPython's memoized `deepcopy`. -/
def deepcopy (h : Heap) (v : Val) : Option (Heap × Val) :=
  (readVal h h.next v).map (writeVal h)

/-- Addresses reachable from any entry of a dict, given a reach function
for values. -/
def reachKidsAux (f : Val → List Nat) : Dict → List Nat
  | [] => []
  | (_, v) :: rest => f v ++ reachKidsAux f rest

/-- All heap addresses dereferenced when reading the structure rooted at a
value (the addresses whose cells the value's deep structure depends on). -/
def reachVal (h : Heap) : Nat → Val → List Nat
  | _, .leaf _ => []
  | 0, .ref a => [a]
  | fuel + 1, .ref a =>
      a :: (match h.get a with
            | none => []
            | some d => reachKidsAux (reachVal h fuel) d)

/-- Addresses reachable from any entry of a dict at a given fuel. -/
def reachKids (h : Heap) (fuel : Nat) (d : Dict) : List Nat :=
  reachKidsAux (reachVal h fuel) d

/-- One step of attribute-path lookup: `v[key]`. -/
def lookupStep (h : Heap) (v : Val) (key : String) : Option Val :=
  match v with
  | .ref a => (h.get a).bind (fun d => dictGet d key)
  | .leaf _ => none

/-- Chained subscript lookup `v[k1][k2]...`. -/
def lookupPath (h : Heap) (v : Val) : List String → Option Val
  | [] => some v
  | k :: ks => (lookupStep h v k).bind (fun v' => lookupPath h v' ks)

/-- `obj[k1][k2] = v`: evaluate the one-level subscript chain, then mutate
the resulting dict (a missing key or a non-dict value is a runtime error). -/
def setPath1 (h : Heap) (a : Nat) (k1 k2 : String) (v : Val) : Option Heap :=
  match (h.get a).bind (fun d => dictGet d k1) with
  | some (.ref b) => some (h.set b k2 v)
  | _ => none

/-- `obj[k1][k2][k3] = v`: evaluate the two-level subscript chain, then
mutate the resulting dict. -/
def setPath2 (h : Heap) (a : Nat) (k1 k2 k3 : String) (v : Val) : Option Heap :=
  match (h.get a).bind (fun d => dictGet d k1) with
  | some (.ref b) =>
      match (h.get b).bind (fun d => dictGet d k2) with
      | some (.ref c) => some (h.set c k3 v)
      | _ => none
  | _ => none

/-! ## Python string and formatting primitives used by the script -/

/-- The decimal digit character for `n < 10`. -/
def digitChar (n : Nat) : Char := Char.ofNat (48 + n)

/-- Decimal digits with explicit fuel (any fuel above the number works:
each recursive step at least divides by 10). -/
def decDigitsAux : Nat → Nat → List Char
  | 0, _ => []
  | fuel + 1, n =>
      if n < 10 then [digitChar n]
      else decDigitsAux fuel (n / 10) ++ [digitChar (n % 10)]

/-- Decimal digits of a natural number, most significant first, no leading
zeros (the digits CPython prints for a non-negative int). -/
def decDigits (n : Nat) : List Char := decDigitsAux (n + 1) n

/-- The numeric value of a digit string (leading zeros allowed); used to
state that zero-padded job-identifier suffixes decode back to the index. -/
def decValAux : List Char → Nat → Nat
  | [], acc => acc
  | c :: rest, acc => decValAux rest (10 * acc + (c.toNat - 48))

/-- Value of a decimal digit string. -/
def decVal (l : List Char) : Nat := decValAux l 0

/-- The Python format `f"{n:0w}"` for a non-negative integer `n`: decimal
digits, left-padded with `'0'` up to width `w`. -/
def pyFormatZeroPad (w n : Nat) : String :=
  ⟨List.replicate (w - (decDigits n).length) '0' ++ decDigits n⟩

/-- Job identifier `f"xtrack_(idx_job:04)"` (line 304 of the script). -/
def jobId (idx : Nat) : String := "xtrack_" ++ pyFormatZeroPad 4 idx

/-- Per-split particle path `f"../particles/(track:02).parquet"` (line 300). -/
def particleFileName (track : Nat) : String :=
  "../particles/" ++ pyFormatZeroPad 2 track ++ ".parquet"

/-- `s.replace(pat, rep)` on character lists: replace all non-overlapping
occurrences left to right.  The fuel is the length of the scanned list (each
step consumes at least one character).  For the empty pattern CPython
interleaves `rep` everywhere; the script only replaces `".json"`, so that
case is irrelevant and left as the identity. -/
def listReplace (pat rep : List Char) : Nat → List Char → List Char
  | _, [] => []
  | 0, l => l
  | fuel + 1, c :: rest =>
      if pat ≠ [] ∧ pat.isPrefixOf (c :: rest) then
        rep ++ listReplace pat rep fuel ((c :: rest).drop pat.length)
      else
        c :: listReplace pat rep fuel rest

/-- Python `s.replace(pat, rep)` (all occurrences). -/
def pyReplace (s pat rep : String) : String :=
  ⟨listReplace pat.data rep.data s.data.length s.data⟩

/-- Whether a character is a decimal digit. -/
def isDigitChar (c : Char) : Bool := 48 ≤ c.toNat && c.toNat ≤ 57

/-- Model of Python `int(s)` for the interactive prompt: optional
surrounding spaces, an optional sign, then at least one digit; anything
else raises `ValueError` (modelled as `none`). -/
def pyInt (s : String) : Option Int :=
  let l := (((s.data.dropWhile (· = ' ')).reverse.dropWhile (· = ' ')).reverse)
  match l with
  | '-' :: ds => if ds ≠ [] ∧ ds.all isDigitChar then some (-(decVal ds : Int)) else none
  | '+' :: ds => if ds ≠ [] ∧ ds.all isDigitChar then some ((decVal ds : Int)) else none
  | ds => if ds ≠ [] ∧ ds.all isDigitChar then some ((decVal ds : Int)) else none

/-- `itertools.product(A, B)`: all pairs, the second (last-declared) axis
varying fastest. -/
def pyProduct {α β : Type} (A : List α) (B : List β) : List (α × β) :=
  A.flatMap (fun a => B.map (fun b => (a, b)))

/-! ## The script's configuration templates

Each module-level dict of the script is embedded as the dict-literal tree
holding its final pre-loop contents, with keys in the script's insertion
order; materializing the trees left to right in program order reproduces the
allocation order and the aliasing structure of the Python objects.  Values
that the script computes and then stores into other dicts by reference
(`d_config_tune_and_chroma` into `d_config_collider`, the knobs into the
tune dict, the module dicts into the generation-1 node) are *not* inlined:
those aliasing assignments are performed on the heap below, exactly as in
the source. -/

/-- `d_config_particles["n_r"] = 2 * 16 * (r_max - r_min)` (line 33). -/
def n_r_value : Int := 2 * 16 * (10 - 2)

/-- `d_config_particles` (lines 28-39). -/
def d_config_particles : Tree := .node
  [("r_min", .leaf (.vint 2)),
   ("r_max", .leaf (.vint 10)),
   ("n_r", .leaf (.vint n_r_value)),
   ("n_angles", .leaf (.vint 5)),
   ("n_split", .leaf (.vint 8))]

/-- `d_config_mad` (lines 52-60): beam config with both beams' energies. -/
def d_config_mad : Tree := .node
  [("beam_config", .node
     [("lhcb1", .node [("beam_energy_tot", .leaf (.vint 7000))]),
      ("lhcb2", .node [("beam_energy_tot", .leaf (.vint 7000))])]),
   ("optics_file", .leaf (.vstr "acc-models-lhc/flatcc/opt_flathv_75_180_1500_thin.madx"))]

/-- `d_config_tune_and_chroma` (lines 75-89); `knob_settings` is inserted
later, by line 228, on the heap. -/
def d_config_tune_and_chroma : Tree := .node
  [("qx", .node [("lhcb1", .leaf (.vfloat (62313/1000))), ("lhcb2", .leaf (.vfloat (62313/1000)))]),
   ("qy", .node [("lhcb1", .leaf (.vfloat (60320/1000))), ("lhcb2", .leaf (.vfloat (60320/1000)))]),
   ("dqx", .node [("lhcb1", .leaf (.vfloat 5)), ("lhcb2", .leaf (.vfloat 5))]),
   ("dqy", .node [("lhcb1", .leaf (.vfloat 5)), ("lhcb2", .leaf (.vfloat 5))]),
   ("delta_cmr", .leaf (.vfloat (1/1000))),
   ("delta_cmi", .leaf (.vfloat 0))]

/-- `d_config_knobs` (lines 94-112). -/
def d_config_knobs : Tree := .node
  [("on_x1", .leaf (.vint 250)),
   ("on_sep1", .leaf (.vint 0)),
   ("on_x2", .leaf (.vint (-170))),
   ("on_sep2", .leaf (.vfloat (138/1000))),
   ("on_x5", .leaf (.vint 250)),
   ("on_sep5", .leaf (.vint 0)),
   ("on_x8h", .leaf (.vfloat 0)),
   ("on_x8v", .leaf (.vint 170)),
   ("on_crab1", .leaf (.vint (-190))),
   ("on_crab5", .leaf (.vint (-190))),
   ("i_oct_b1", .leaf (.vfloat 60)),
   ("i_oct_b2", .leaf (.vfloat 60))]

/-- `d_config_leveling` (lines 117-126). -/
def d_config_leveling : Tree := .node
  [("ip2", .node [("separation_in_sigmas", .leaf (.vint 5))]),
   ("ip8", .node [("luminosity", .leaf (.vfloat (2 * 10 ^ 33)))])]

/-- `d_config_beambeam` (lines 132-179), parameterized by the value of
`filling_scheme_path` recorded as `pattern_fname`; `i_bunch_b1 = None` and
`i_bunch_b2 = 1144` are the literal initializations of lines 178-179
(`check_bunch_number` is `False`, so the lines 181-216 block never runs in
the script). -/
def d_config_beambeam (pattern_fname : String) : Tree := .node
  [("mask_with_filling_pattern", .node
     [("pattern_fname", .leaf (.vstr pattern_fname)),
      ("i_bunch_b1", .leaf .vnone),
      ("i_bunch_b2", .leaf (.vint 1144))]),
   ("num_particles_per_bunch", .leaf (.vfloatSqrt (14 * 10 ^ 10) (1960/2216))),
   ("nemitt_x", .leaf (.vfloat (25/10^7))),
   ("nemitt_y", .leaf (.vfloat (25/10^7)))]

/-- `d_config_simulation` (lines 242-251); `particle_file` and
`collider_file` are appended inside the scan loop. -/
def d_config_simulation : Tree := .node
  [("n_turns", .leaf (.vint 1000000)),
   ("delta_max", .leaf (.vfloat (27/100000))),
   ("beam", .leaf (.vstr "lhcb1"))]

/-- The empty generation-1 tree literal of line 273. -/
def children_init : Tree := .node
  [("base_collider", .node
     [("config_particles", .node []),
      ("config_mad", .node []),
      ("children", .node [])])]

/-- `check_bunch_number = False` (line 180). -/
def check_bunch_number : Bool := false

/-- Lines 161-167: the filling-scheme path recorded as `pattern_fname` — the
original path when the loaded scheme has both `beam1` and `beam2` keys,
otherwise the path with `".json"` replaced (all occurrences, as
`str.replace` does) by `"_converted.json"`. -/
def patternFname (path : String) (hasBeam1 hasBeam2 : Bool) : String :=
  if hasBeam1 && hasBeam2 then path
  else pyReplace path ".json" "_converted.json"

/-- Lines 259-261: the bunch axis — `int(l_of_bunch_per_family[0])` for each
identical-bunch family of beam 1 (`none` models the `IndexError` on an
empty family). -/
def l_bunch_to_scan (families : List (List Int)) : Option (List Int) :=
  families.mapM (fun fam => fam.head?)

/-- The module-level variable bindings left by the pre-loop part of the
script: the heap, and the addresses held by the Python variables
`d_config_particles`, `d_config_mad`, `d_config_collider`,
`d_config_simulation` and `children`. -/
structure InitState where
  heap : Heap
  aParticles : Nat
  aMad : Nat
  aCollider : Nat
  aSim : Nat
  aChildren : Nat
deriving DecidableEq

/-- The pre-loop part of the script (lines 28-279): build every template
dict, wire `d_config_collider` together by reference (lines 222-235), and
hang `d_config_particles` / `d_config_mad` off the generation-1 node by
reference (lines 276-279). -/
def scriptInit (pattern_fname : String) : Option InitState := do
  let h : Heap := ⟨[], 0⟩
  let (h, vParticles) := writeVal h d_config_particles
  let (h, vMad) := writeVal h d_config_mad
  let (h, vTune) := writeVal h d_config_tune_and_chroma
  let (h, vKnobs) := writeVal h d_config_knobs
  let (h, vLeveling) := writeVal h d_config_leveling
  let (h, vBeambeam) := writeVal h (d_config_beambeam pattern_fname)
  -- d_config_collider = () ... (lines 222-235)
  let (h, aCollider) := h.alloc []
  let h := h.set aCollider "config_knobs_and_tuning" vTune
  -- d_config_collider["config_knobs_and_tuning"]["knob_settings"] = d_config_knobs
  let h ← setPath1 h aCollider "config_knobs_and_tuning" "knob_settings" vKnobs
  let h := h.set aCollider "skip_leveling" (.leaf (.vbool false))
  let h := h.set aCollider "config_lumi_leveling" vLeveling
  let h := h.set aCollider "config_beambeam" vBeambeam
  let (h, vSim) := writeVal h d_config_simulation
  let (h, vChildren) := writeVal h children_init
  let aParticles ← match vParticles with | .ref a => some a | _ => none
  let aMad ← match vMad with | .ref a => some a | _ => none
  let aSim ← match vSim with | .ref a => some a | _ => none
  let aChildren ← match vChildren with | .ref a => some a | _ => none
  -- children["base_collider"]["config_particles"] = d_config_particles (line 276)
  let h ← setPath1 h aChildren "base_collider" "config_particles" vParticles
  -- children["base_collider"]["config_mad"] = d_config_mad (line 279)
  let h ← setPath1 h aChildren "base_collider" "config_mad" vMad
  return ⟨h, aParticles, aMad, aCollider, aSim, aChildren⟩

/-- One iteration of the scan loop (lines 292-308) at enumeration index
`idx` for the combination `(track, bunch)`: the inner `for beam in
["lhcb1", "lhcb2"]` loop runs its body twice, both times writing
`i_bunch_b1`; then the two tracking paths are stored, and a child holding
deep copies of `d_config_simulation` and `d_config_collider` is inserted
under the job identifier. -/
def loopBody (aCollider aSim aChildren : Nat) (h : Heap) (idx track : Nat)
    (bunch : Int) : Option Heap := do
  let h ← setPath2 h aCollider "config_beambeam" "mask_with_filling_pattern"
      "i_bunch_b1" (.leaf (.vint bunch))
  let h ← setPath2 h aCollider "config_beambeam" "mask_with_filling_pattern"
      "i_bunch_b1" (.leaf (.vint bunch))
  let h := h.set aSim "particle_file" (.leaf (.vstr (particleFileName track)))
  let h := h.set aSim "collider_file" (.leaf (.vstr "../collider/collider.json"))
  let (h, vSimCopy) ← deepcopy h (.ref aSim)
  let (h, vColCopy) ← deepcopy h (.ref aCollider)
  let (h, aChild) := h.alloc
    [("config_simulation", vSimCopy),
     ("config_collider", vColCopy),
     ("log_file", .leaf (.vstr "tree_maker.log"))]
  setPath2 h aChildren "base_collider" "children" (jobId idx) (.ref aChild)

/-- The scan loop: `for idx_job, (track, bunch_nb) in
enumerate(itertools.product(track_array, l_bunch_to_scan))`. -/
def runJobs (aCollider aSim aChildren : Nat) : Nat → List (Nat × Int) → Heap → Option Heap
  | _, [], h => some h
  | idx, (track, bunch) :: rest, h => do
      let h' ← loopBody aCollider aSim aChildren h idx track bunch
      runJobs aCollider aSim aChildren (idx + 1) rest h'

/-- The result of the modelled part of the script. -/
structure ScriptResult where
  heap : Heap
  aParticles : Nat
  aMad : Nat
  aCollider : Nat
  aSim : Nat
  aChildren : Nat
deriving DecidableEq

/-- The whole modelled script, parameterized by the data the script reads
from its environment: the absolute filling-scheme path, whether the loaded
scheme has the `beam1` / `beam2` keys, and its `beam1_identical_bunches`
families.  `track_array = np.arange(d_config_particles["n_split"])` is read
back from the heap, as in line 291. -/
def scriptRun (path : String) (hasBeam1 hasBeam2 : Bool)
    (families : List (List Int)) : Option ScriptResult := do
  let fname := patternFname path hasBeam1 hasBeam2
  let bunches ← l_bunch_to_scan families
  let st ← scriptInit fname
  let nSplit ← match (st.heap.get st.aParticles).bind (fun d => dictGet d "n_split") with
    | some (.leaf (.vint n)) => some n.toNat
    | _ => none
  let h ← runJobs st.aCollider st.aSim st.aChildren 0
      (pyProduct (List.range nSplit) bunches) st.heap
  return ⟨h, st.aParticles, st.aMad, st.aCollider, st.aSim, st.aChildren⟩

/-! ## Closed-form description of the heap built by the script

The pre-loop heap is fully concrete (23 cells, addresses 0-22); the loop
appends one 14-cell block per job variant.  The definitions below describe
the cells; the theorems that follow prove the script produces exactly this
layout. -/

/-- Cell 0: the `d_config_particles` dict object. -/
def particlesDict : Dict :=
  [("r_min", .leaf (.vint 2)),
   ("r_max", .leaf (.vint 10)),
   ("n_r", .leaf (.vint n_r_value)),
   ("n_angles", .leaf (.vint 5)),
   ("n_split", .leaf (.vint 8))]

/-- Cells 1 and 2: the per-beam energy dicts. -/
def lhcbEnergyDict : Dict := [("beam_energy_tot", .leaf (.vint 7000))]

/-- Cell 3: `beam_config`. -/
def beamConfigDict : Dict := [("lhcb1", .ref 1), ("lhcb2", .ref 2)]

/-- Cell 4: the `d_config_mad` dict object. -/
def madDict : Dict :=
  [("beam_config", .ref 3),
   ("optics_file", .leaf (.vstr "acc-models-lhc/flatcc/opt_flathv_75_180_1500_thin.madx"))]

/-- The two-beam scalar dicts under `qx`/`qy`/`dqx`/`dqy`. -/
def tuneSubDict (q : ℚ) : Dict :=
  [("lhcb1", .leaf (.vfloat q)), ("lhcb2", .leaf (.vfloat q))]

/-- The `d_config_tune_and_chroma` dict contents, given the addresses of its
four sub-dicts and of the knobs dict (`knob_settings` is appended by line
228). -/
def tuneDictRefs (aqx aqy adqx adqy aknobs : Nat) : Dict :=
  [("qx", .ref aqx), ("qy", .ref aqy), ("dqx", .ref adqx), ("dqy", .ref adqy),
   ("delta_cmr", .leaf (.vfloat (1/1000))),
   ("delta_cmi", .leaf (.vfloat 0)),
   ("knob_settings", .ref aknobs)]

/-- The `d_config_knobs` dict contents. -/
def knobsDict : Dict :=
  [("on_x1", .leaf (.vint 250)),
   ("on_sep1", .leaf (.vint 0)),
   ("on_x2", .leaf (.vint (-170))),
   ("on_sep2", .leaf (.vfloat (138/1000))),
   ("on_x5", .leaf (.vint 250)),
   ("on_sep5", .leaf (.vint 0)),
   ("on_x8h", .leaf (.vfloat 0)),
   ("on_x8v", .leaf (.vint 170)),
   ("on_crab1", .leaf (.vint (-190))),
   ("on_crab5", .leaf (.vint (-190))),
   ("i_oct_b1", .leaf (.vfloat 60)),
   ("i_oct_b2", .leaf (.vfloat 60))]

/-- The `ip2` leveling dict. -/
def ip2Dict : Dict := [("separation_in_sigmas", .leaf (.vint 5))]

/-- The `ip8` leveling dict. -/
def ip8Dict : Dict := [("luminosity", .leaf (.vfloat (2 * 10 ^ 33)))]

/-- The `d_config_leveling` dict contents, given its sub-dict addresses. -/
def levelingDictRefs (aip2 aip8 : Nat) : Dict :=
  [("ip2", .ref aip2), ("ip8", .ref aip8)]

/-- The `mask_with_filling_pattern` dict contents: `pattern_fname`, then the
mutable `i_bunch_b1` slot, then the constant `i_bunch_b2 = 1144`. -/
def maskDict (fname : String) (b1 : Val) : Dict :=
  [("pattern_fname", .leaf (.vstr fname)),
   ("i_bunch_b1", b1),
   ("i_bunch_b2", .leaf (.vint 1144))]

/-- The `d_config_beambeam` dict contents, given its mask dict address. -/
def beambeamDictRefs (amask : Nat) : Dict :=
  [("mask_with_filling_pattern", .ref amask),
   ("num_particles_per_bunch", .leaf (.vfloatSqrt (14 * 10 ^ 10) (1960/2216))),
   ("nemitt_x", .leaf (.vfloat (25/10^7))),
   ("nemitt_y", .leaf (.vfloat (25/10^7)))]

/-- The `d_config_collider` dict contents, given the addresses of the tune,
leveling and beam-beam dicts. -/
def colliderDictRefs (atune aleveling abeambeam : Nat) : Dict :=
  [("config_knobs_and_tuning", .ref atune),
   ("skip_leveling", .leaf (.vbool false)),
   ("config_lumi_leveling", .ref aleveling),
   ("config_beambeam", .ref abeambeam)]

/-- The `d_config_simulation` dict before the loop first runs. -/
def simDict0 : Dict :=
  [("n_turns", .leaf (.vint 1000000)),
   ("delta_max", .leaf (.vfloat (27/100000))),
   ("beam", .leaf (.vstr "lhcb1"))]

/-- The `d_config_simulation` dict once the loop has stored the two
per-iteration tracking paths for split value `track`. -/
def simDictFiles (track : Nat) : Dict :=
  simDict0 ++
  [("particle_file", .leaf (.vstr (particleFileName track))),
   ("collider_file", .leaf (.vstr "../collider/collider.json"))]

/-- Cell 21: the `base_collider` generation-1 node, holding *references* to
the module-level `d_config_particles` (cell 0) and `d_config_mad` (cell 4)
and to its (initially empty) children dict (cell 20). -/
def baseDict : Dict :=
  [("config_particles", .ref 0), ("config_mad", .ref 4), ("children", .ref 20)]

/-- Cell 22: the `children` tree root of line 273. -/
def outerDict : Dict := [("base_collider", .ref 21)]

/-- The 23 pre-loop heap cells.  The four mutable slots are parameters: the
`pattern_fname` string baked into the mask, the current
`d_config_simulation` contents, the current `i_bunch_b1` value, and the
children dict of `base_collider`. -/
def preCells (fname : String) (simD : Dict) (b1 : Val) (kidsD : Dict) :
    List (Nat × Dict) :=
  [(0, particlesDict),
   (1, lhcbEnergyDict), (2, lhcbEnergyDict), (3, beamConfigDict), (4, madDict),
   (5, tuneSubDict (62313/1000)), (6, tuneSubDict (60320/1000)),
   (7, tuneSubDict 5), (8, tuneSubDict 5),
   (9, tuneDictRefs 5 6 7 8 10),
   (10, knobsDict),
   (11, ip2Dict), (12, ip8Dict), (13, levelingDictRefs 11 12),
   (14, maskDict fname b1),
   (15, beambeamDictRefs 14),
   (16, colliderDictRefs 9 13 15),
   (17, simD),
   (18, []), (19, []),
   (20, kidsD),
   (21, baseDict), (22, outerDict)]

/-- The dict cell of one job-variant child node: the deep copies of
`d_config_simulation` (at the block base `N`) and of `d_config_collider`
(at `N + 12`). -/
def childTopDict (N : Nat) : Dict :=
  [("config_simulation", .ref N),
   ("config_collider", .ref (N + 12)),
   ("log_file", .leaf (.vstr "tree_maker.log"))]

/-- The 12 cells allocated by `copy.deepcopy(d_config_collider)` when the
heap's next free address is `N + 1`. -/
def colliderCopyCells (N : Nat) (fname : String) (bunch : Int) :
    List (Nat × Dict) :=
  [(N + 1, tuneSubDict (62313/1000)), (N + 2, tuneSubDict (60320/1000)),
   (N + 3, tuneSubDict 5), (N + 4, tuneSubDict 5),
   (N + 5, knobsDict),
   (N + 6, tuneDictRefs (N + 1) (N + 2) (N + 3) (N + 4) (N + 5)),
   (N + 7, ip2Dict), (N + 8, ip8Dict), (N + 9, levelingDictRefs (N + 7) (N + 8)),
   (N + 10, maskDict fname (.leaf (.vint bunch))),
   (N + 11, beambeamDictRefs (N + 10)),
   (N + 12, colliderDictRefs (N + 6) (N + 9) (N + 11))]

/-- The 14 cells appended by one loop iteration whose block starts at
address `N`, for combination `(track, bunch)`. -/
def childCells (N : Nat) (fname : String) (track : Nat) (bunch : Int) :
    List (Nat × Dict) :=
  (N, simDictFiles track) :: colliderCopyCells N fname bunch ++ [(N + 13, childTopDict N)]

/-- The blocks appended by the loop for the given combination list, blocks
starting at address `N`. -/
def blocksFrom (fname : String) : Nat → List (Nat × Int) → List (Nat × Dict)
  | _, [] => []
  | N, (track, bunch) :: rest =>
      childCells N fname track bunch ++ blocksFrom fname (N + 14) rest

/-- The children-dict entries accumulated by the loop: the `idx`-th job
identifier mapped to the child node of the block starting at `N`. -/
def kidsEntries : Nat → Nat → List (Nat × Int) → Dict
  | _, _, [] => []
  | idx, N, _ :: rest => (jobId idx, .ref (N + 13)) :: kidsEntries (idx + 1) (N + 14) rest

/-- The final contents of the `d_config_simulation` dict after the loop. -/
def lastSimDict : List (Nat × Int) → Dict → Dict
  | [], d => d
  | (track, _) :: rest, _ => lastSimDict rest (simDictFiles track)

/-- The final `i_bunch_b1` value of the template mask dict after the loop. -/
def lastB1 : List (Nat × Int) → Val → Val
  | [], v => v
  | (_, bunch) :: rest, _ => lastB1 rest (.leaf (.vint bunch))

/-- The combination list the loop enumerates (line 292):
`itertools.product(np.arange(8), l_bunch_to_scan)`. -/
def jobsOf (bunches : List Int) : List (Nat × Int) :=
  pyProduct (List.range 8) bunches

/-- The final heap of the script for a given `pattern_fname` and bunch
axis. -/
def finalHeap (fname : String) (bunches : List Int) : Heap :=
  ⟨preCells fname (lastSimDict (jobsOf bunches) simDict0)
      (lastB1 (jobsOf bunches) (.leaf .vnone))
      (kidsEntries 0 23 (jobsOf bunches)) ++
    blocksFrom fname 23 (jobsOf bunches),
   23 + 14 * (jobsOf bunches).length⟩

/-- The dict at offset `c` of a child block starting at `N`. -/
def childCellAt (N : Nat) (fname : String) (track : Nat) (bunch : Int) :
    Nat → Option Dict
  | 0 => some (simDictFiles track)
  | 1 => some (tuneSubDict (62313/1000))
  | 2 => some (tuneSubDict (60320/1000))
  | 3 => some (tuneSubDict 5)
  | 4 => some (tuneSubDict 5)
  | 5 => some knobsDict
  | 6 => some (tuneDictRefs (N + 1) (N + 2) (N + 3) (N + 4) (N + 5))
  | 7 => some ip2Dict
  | 8 => some ip8Dict
  | 9 => some (levelingDictRefs (N + 7) (N + 8))
  | 10 => some (maskDict fname (.leaf (.vint bunch)))
  | 11 => some (beambeamDictRefs (N + 10))
  | 12 => some (colliderDictRefs (N + 6) (N + 9) (N + 11))
  | 13 => some (childTopDict N)
  | _ => none


/-- The children dict of `base_collider` in a script result: the Python
expression `children["base_collider"]["children"]`. -/
def jobChildrenDict (r : ScriptResult) : Option Dict :=
  match lookupPath r.heap (.ref r.aChildren) ["base_collider", "children"] with
  | some (.ref a) => r.heap.get a
  | _ => none


/-! ## The check_bunch_number block (lines 181-216)

`check_bunch_number` is `False` in the script, so this block never runs in
the modelled execution; the claims about it concern the counterfactual in
which the mode is enabled, so the block is modelled standalone.  The
external `get_worst_bunch` results enter as the `worst_bunch_b1` /
`worst_bunch_b2` parameters; the user's typed lines enter as a list of
strings consumed by `input()`. -/

/-- Outcome of the interactive beam-1 while-loop: the value finally
assigned to `i_bunch_b1` plus the unconsumed input, or the two failure
modes (running out of input models `input()` raising `EOFError`; a
non-integer reply after `n` models `int()` raising `ValueError`). -/
inductive PromptOutcome where
  | ok (i_bunch_b1 : Int) (rest : List String)
  | eof
  | valueError (reply : String)
deriving DecidableEq

/-- The `while d_config_beambeam[...]["i_bunch_b1"] is None` loop of lines
192-204: `y` adopts the computed worst bunch, `n` reads and parses one more
line, and anything else leaves `i_bunch_b1` unset so the loop prompts
again. -/
def promptLoopB1 (worst_bunch_b1 : Int) : List String → PromptOutcome
  | [] => .eof
  | reply :: rest =>
      if reply = "y" then .ok worst_bunch_b1 rest
      else if reply = "n" then
        match rest with
        | [] => .eof
        | num :: rest' =>
            match pyInt num with
            | some v => .ok v rest'
            | none => .valueError num
      else promptLoopB1 worst_bunch_b1 rest

/-- The whole lines 187-216 block (when `check_bunch_number` is enabled):
beam 1 is resolved through the interactive loop when unset, beam 2 is
always resolved automatically to the worst bunch when unset, consuming no
input.  Returns the final `(i_bunch_b1, i_bunch_b2)` and the unconsumed
input, or `none` when the prompt loop fails. -/
def checkBunchNumberBlock (worst_bunch_b1 worst_bunch_b2 : Int)
    (i_bunch_b1 i_bunch_b2 : Option Int) (inputs : List String) :
    Option ((Int × Int) × List String) :=
  match i_bunch_b1 with
  | some v1 =>
      match i_bunch_b2 with
      | some v2 => some ((v1, v2), inputs)
      | none => some ((v1, worst_bunch_b2), inputs)
  | none =>
      match promptLoopB1 worst_bunch_b1 inputs with
      | .ok v1 rest =>
          match i_bunch_b2 with
          | some v2 => some ((v1, v2), rest)
          | none => some ((v1, worst_bunch_b2), rest)
      | _ => none


/-- The pre-loop part of the script builds exactly the 23 concrete cells of
`preCells` (with the mask holding `pattern_fname`, `i_bunch_b1 = None`, the
simulation dict without the per-job paths, and no children yet), and the
module variables hold addresses 0, 4, 16, 17, 22. -/
theorem scriptInit_eq (fname : String) :
    scriptInit fname =
      some ⟨⟨preCells fname simDict0 (.leaf .vnone) [], 23⟩, 0, 4, 16, 17, 22⟩ := by
  simp [scriptInit, writeVal, writeKids, Heap.alloc, Heap.set, Heap.get, assocFind,
    dictGet, dictSet, dictHasKey, setPath1,
    d_config_particles, d_config_mad, d_config_tune_and_chroma, d_config_knobs,
    d_config_leveling, d_config_beambeam, d_config_simulation, children_init,
    preCells, particlesDict, lhcbEnergyDict, beamConfigDict, madDict, tuneSubDict,
    tuneDictRefs, knobsDict, ip2Dict, ip8Dict, levelingDictRefs, maskDict,
    beambeamDictRefs, colliderDictRefs, simDict0, baseDict, outerDict, n_r_value]

/-! ## Heap lemmas -/

/-- A cell-wise update map is the identity on a segment that does not
contain the updated address. -/
theorem map_setCell_skip (a : Nat) (key : String) (v : Val) :
    ∀ (l : List (Nat × Dict)), (∀ c ∈ l, c.1 ≠ a) →
      l.map (fun c => if c.1 = a then (c.1, dictSet c.2 key v) else c) = l := by
  intro l h
  induction l with
  | nil => rfl
  | cons c rest ih =>
      simp only [List.map_cons, List.cons.injEq]
      refine ⟨by rw [if_neg (h c (by simp))], ih (fun c' hc' => h c' (by simp [hc']))⟩

/-- Address lookup skips a prefix in which the address does not occur. -/
theorem assocFind_append_of_none {l1 : List (Nat × Dict)} {a : Nat}
    (h : assocFind l1 a = none) (l2 : List (Nat × Dict)) :
    assocFind (l1 ++ l2) a = assocFind l2 a := by
  induction l1 with
  | nil => rfl
  | cons c rest ih =>
      rw [assocFind] at h
      rw [List.cons_append, assocFind]
      split at h
      · exact absurd h (by simp)
      · next hne => rw [if_neg hne]; exact ih h

/-- Address lookup returns the first hit, whatever follows. -/
theorem assocFind_append_of_some {l1 : List (Nat × Dict)} {a : Nat} {d : Dict}
    (h : assocFind l1 a = some d) (l2 : List (Nat × Dict)) :
    assocFind (l1 ++ l2) a = some d := by
  induction l1 with
  | nil => exact absurd h (by simp [assocFind])
  | cons c rest ih =>
      rw [assocFind] at h
      rw [List.cons_append, assocFind]
      split at h
      · next heq => rw [if_pos heq]; exact h
      · next hne => rw [if_neg hne]; exact ih h

/-- No pre-loop cell has an address at or above 23. -/
theorem assocFind_preCells_none (fname : String) (simD : Dict) (b1 : Val)
    (kidsD : Dict) {a : Nat} (ha : 23 ≤ a) :
    assocFind (preCells fname simD b1 kidsD) a = none := by
  simp only [preCells, assocFind]
  repeat rw [if_neg (by omega)]

/-- Mutating `i_bunch_b1` (the dict at address 14) only changes that slot of
the pre-loop cells. -/
theorem heapSet_mask (fname : String) (simD : Dict) (b1 v : Val) (kidsD : Dict)
    (tail : List (Nat × Dict)) (N : Nat) (htail : ∀ c ∈ tail, 23 ≤ c.1) :
    Heap.set ⟨preCells fname simD b1 kidsD ++ tail, N⟩ 14 "i_bunch_b1" v =
      ⟨preCells fname simD v kidsD ++ tail, N⟩ := by
  have ht := map_setCell_skip 14 "i_bunch_b1" v tail
    (fun c hc => by have := htail c hc; omega)
  simp only [Heap.set, List.map_append]
  rw [ht]
  simp [preCells, maskDict, dictSet, dictHasKey, dictGet]

/-- Mutating the simulation dict (address 17) only changes that slot. -/
theorem heapSet_sim (fname : String) (simD : Dict) (b1 v : Val) (kidsD : Dict)
    (tail : List (Nat × Dict)) (N : Nat) (key : String)
    (htail : ∀ c ∈ tail, 23 ≤ c.1) :
    Heap.set ⟨preCells fname simD b1 kidsD ++ tail, N⟩ 17 key v =
      ⟨preCells fname (dictSet simD key v) b1 kidsD ++ tail, N⟩ := by
  have ht := map_setCell_skip 17 key v tail
    (fun c hc => by have := htail c hc; omega)
  simp only [Heap.set, List.map_append]
  rw [ht]
  simp [preCells]

/-- Mutating the children dict (address 20) only changes that slot. -/
theorem heapSet_kids (fname : String) (simD : Dict) (b1 v : Val) (kidsD : Dict)
    (tail : List (Nat × Dict)) (N : Nat) (key : String)
    (htail : ∀ c ∈ tail, 23 ≤ c.1) :
    Heap.set ⟨preCells fname simD b1 kidsD ++ tail, N⟩ 20 key v =
      ⟨preCells fname simD b1 (dictSet kidsD key v) ++ tail, N⟩ := by
  have ht := map_setCell_skip 20 key v tail
    (fun c hc => by have := htail c hc; omega)
  simp only [Heap.set, List.map_append]
  rw [ht]
  simp [preCells]

/-! ## Decimal formatting lemmas: zero-padded identifiers decode uniquely -/

/-- Evaluating a digit string splits over append. -/
theorem decValAux_append (l1 l2 : List Char) :
    ∀ acc, decValAux (l1 ++ l2) acc = decValAux l2 (decValAux l1 acc) := by
  induction l1 with
  | nil => intro acc; rfl
  | cons c rest ih => intro acc; simp only [List.cons_append, decValAux]; exact ih _

/-- The digit character of `n < 10` has code point `48 + n`. -/
theorem digitChar_toNat {n : Nat} (h : n < 10) : (digitChar n).toNat = 48 + n := by
  interval_cases n <;> decide

/-- Evaluating the digits of `n` on top of an accumulator. -/
theorem decValAux_decDigitsAux :
    ∀ (fuel n : Nat), n < fuel → ∀ acc,
      decValAux (decDigitsAux fuel n) acc =
        acc * 10 ^ (decDigitsAux fuel n).length + n := by
  intro fuel
  induction fuel with
  | zero => intro n hn; omega
  | succ fuel ih =>
      intro n hn acc
      rw [decDigitsAux]
      split
      · next h =>
          simp [decValAux, digitChar_toNat h]
          omega
      · next h =>
          have hlt : n / 10 < fuel := by
            have := Nat.div_lt_self (show 0 < n by omega) (show 1 < 10 by omega)
            omega
          rw [decValAux_append, ih _ hlt]
          simp [decValAux, digitChar_toNat (Nat.mod_lt n (by omega) : n % 10 < 10)]
          rw [pow_succ, ← mul_assoc]
          generalize acc * 10 ^ (decDigitsAux fuel (n / 10)).length = A
          omega

/-- Evaluating the digits of `n` on top of an accumulator. -/
theorem decValAux_decDigits (n : Nat) :
    ∀ acc, decValAux (decDigits n) acc = acc * 10 ^ (decDigits n).length + n :=
  decValAux_decDigitsAux (n + 1) n (by omega)

/-- Leading zeros contribute nothing to a zero accumulator. -/
theorem decValAux_zeros (z : Nat) : decValAux (List.replicate z '0') 0 = 0 := by
  induction z with
  | zero => rfl
  | succ z ih => simpa [List.replicate, decValAux]

/-- The zero-padded decimal format decodes back to the formatted number:
the numeric value of a job identifier's suffix is exactly its index. -/
theorem decVal_pyFormatZeroPad (w n : Nat) : decVal (pyFormatZeroPad w n).data = n := by
  show decVal (List.replicate (w - (decDigits n).length) '0' ++ decDigits n) = n
  rw [decVal, decValAux_append, decValAux_zeros, decValAux_decDigits]
  simp

/-- Job identifiers are injective: distinct enumeration indices get
distinct identifiers. -/
theorem jobId_injective : ∀ m n : Nat, jobId m = jobId n → m = n := by
  intro m n h
  have hdata : ("xtrack_".data ++ (pyFormatZeroPad 4 m).data) =
      ("xtrack_".data ++ (pyFormatZeroPad 4 n).data) := by
    have := congrArg String.data h
    simpa [jobId, String.data_append] using this
  have hsuffix := List.append_cancel_left hdata
  have := congrArg decVal hsuffix
  rwa [decVal_pyFormatZeroPad, decVal_pyFormatZeroPad] at this

/-! ## One iteration of the scan loop -/

/-- Key membership distributes over dict concatenation. -/
theorem dictHasKey_append (d1 d2 : Dict) (key : String) :
    dictHasKey (d1 ++ d2) key = (dictHasKey d1 key || dictHasKey d2 key) := by
  induction d1 with
  | nil => simp [dictHasKey, dictGet]
  | cons p rest ih =>
      by_cases h : p.1 = key
      · simp [dictHasKey, dictGet, h]
      · simpa [dictHasKey, dictGet, h] using ih

/-- Setting an absent key appends the new entry. -/
theorem dictSet_of_not_has {d : Dict} {key : String} (v : Val)
    (h : dictHasKey d key = false) : dictSet d key v = d ++ [(key, v)] := by
  rw [dictSet, h]
  simp

/-- Writing `i_bunch_b1` through the two-level subscript chain from
`d_config_collider` hits the mask dict (cell 14). -/
theorem setB1_spec (fname : String) (simD : Dict) (b1 : Val) (kidsD : Dict)
    (tail : List (Nat × Dict)) (N : Nat) (b : Int)
    (htail : ∀ c ∈ tail, 23 ≤ c.1) :
    setPath2 ⟨preCells fname simD b1 kidsD ++ tail, N⟩ 16 "config_beambeam"
        "mask_with_filling_pattern" "i_bunch_b1" (.leaf (.vint b)) =
      some ⟨preCells fname simD (.leaf (.vint b)) kidsD ++ tail, N⟩ := by
  have step : setPath2 ⟨preCells fname simD b1 kidsD ++ tail, N⟩ 16 "config_beambeam"
      "mask_with_filling_pattern" "i_bunch_b1" (.leaf (.vint b)) =
      some (Heap.set ⟨preCells fname simD b1 kidsD ++ tail, N⟩ 14 "i_bunch_b1"
        (.leaf (.vint b))) := rfl
  rw [step, heapSet_mask fname simD b1 _ kidsD tail N htail]

/-- Storing `particle_file` then `collider_file` turns the simulation dict
(in either of its two loop states) into the files-for-`track` state. -/
theorem simDict_set_files (simD : Dict)
    (hsim : simD = simDict0 ∨ ∃ t, simD = simDictFiles t) (track : Nat) :
    dictSet (dictSet simD "particle_file" (.leaf (.vstr (particleFileName track))))
        "collider_file" (.leaf (.vstr "../collider/collider.json")) =
      simDictFiles track := by
  rcases hsim with h | ⟨t, h⟩ <;> subst h <;> rfl

/-- `copy.deepcopy(d_config_simulation)` allocates one fresh cell at the
next address, holding the current simulation dict. -/
theorem deepcopy_sim (fname : String) (track : Nat) (b1 : Val) (kidsD : Dict)
    (tail : List (Nat × Dict)) (N : Nat) (hN : 4 ≤ N) :
    deepcopy ⟨preCells fname (simDictFiles track) b1 kidsD ++ tail, N⟩ (.ref 17) =
      some (⟨(preCells fname (simDictFiles track) b1 kidsD ++ tail) ++
               [(N, simDictFiles track)], N + 1⟩, .ref N) := by
  obtain ⟨k, rfl⟩ : ∃ k, N = k + 4 := ⟨N - 4, by omega⟩
  rfl

/-- `copy.deepcopy(d_config_collider)` allocates the 12 cells of
`colliderCopyCells` in postorder, returning the address of the last. -/
theorem deepcopy_collider (fname : String) (track : Nat) (b : Int) (kidsD : Dict)
    (tail : List (Nat × Dict)) (N : Nat) (hN : 4 ≤ N) :
    deepcopy ⟨(preCells fname (simDictFiles track) (.leaf (.vint b)) kidsD ++ tail) ++
        [(N, simDictFiles track)], N + 1⟩ (.ref 16) =
      some (⟨(preCells fname (simDictFiles track) (.leaf (.vint b)) kidsD ++ tail) ++
          [(N, simDictFiles track)] ++
          [(N + 1, tuneSubDict (62313/1000))] ++ [(N + 2, tuneSubDict (60320/1000))] ++
          [(N + 3, tuneSubDict 5)] ++ [(N + 4, tuneSubDict 5)] ++
          [(N + 5, knobsDict)] ++
          [(N + 6, tuneDictRefs (N + 1) (N + 2) (N + 3) (N + 4) (N + 5))] ++
          [(N + 7, ip2Dict)] ++ [(N + 8, ip8Dict)] ++
          [(N + 9, levelingDictRefs (N + 7) (N + 8))] ++
          [(N + 10, maskDict fname (.leaf (.vint b)))] ++
          [(N + 11, beambeamDictRefs (N + 10))] ++
          [(N + 12, colliderDictRefs (N + 6) (N + 9) (N + 11))], N + 13⟩,
        .ref (N + 12)) := by
  obtain ⟨k, rfl⟩ : ∃ k, N = k + 4 := ⟨N - 4, by omega⟩
  rfl

/-- Each cell of a child block lives in the block's address window. -/
theorem childCells_bound (N : Nat) (fname : String) (track : Nat) (bunch : Int) :
    ∀ c ∈ childCells N fname track bunch, N ≤ c.1 ∧ c.1 ≤ N + 13 := by
  intro c hc
  fin_cases hc <;> constructor <;> simp <;> omega

/-- Inserting the child under a fresh job identifier appends one entry to
the children dict of `base_collider` (cell 20). -/
theorem insert_child_spec (fname : String) (simD : Dict) (b1 : Val) (kidsD : Dict)
    (T : List (Nat × Dict)) (N : Nat) (jid : String) (aChild : Nat)
    (hT : ∀ c ∈ T, 23 ≤ c.1) (hkid : dictHasKey kidsD jid = false) :
    setPath2 ⟨preCells fname simD b1 kidsD ++ T, N⟩ 22 "base_collider" "children"
        jid (.ref aChild) =
      some ⟨preCells fname simD b1 (kidsD ++ [(jid, .ref aChild)]) ++ T, N⟩ := by
  have step : setPath2 ⟨preCells fname simD b1 kidsD ++ T, N⟩ 22 "base_collider"
      "children" jid (.ref aChild) =
      some (Heap.set ⟨preCells fname simD b1 kidsD ++ T, N⟩ 20 jid (.ref aChild)) := rfl
  rw [step, heapSet_kids fname simD b1 (.ref aChild) kidsD T N jid hT,
    dictSet_of_not_has _ hkid]

/-- One full iteration of the scan loop: from a heap in loop-invariant form,
it overwrites `i_bunch_b1` (twice), stores the two tracking paths, appends
the 14-cell child block and registers the child under its identifier. -/
theorem loopBody_spec (fname : String) (simD : Dict) (b1 : Val) (kidsD : Dict)
    (tail : List (Nat × Dict)) (N idx track : Nat) (bunch : Int)
    (hN : 23 ≤ N)
    (htail : ∀ c ∈ tail, 23 ≤ c.1)
    (hsim : simD = simDict0 ∨ ∃ t, simD = simDictFiles t)
    (hkid : dictHasKey kidsD (jobId idx) = false) :
    loopBody 16 17 22 ⟨preCells fname simD b1 kidsD ++ tail, N⟩ idx track bunch =
      some ⟨preCells fname (simDictFiles track) (.leaf (.vint bunch))
              (kidsD ++ [(jobId idx, .ref (N + 13))]) ++
            (tail ++ childCells N fname track bunch), N + 14⟩ := by
  simp only [loopBody]
  rw [setB1_spec fname simD b1 kidsD tail N bunch htail]
  simp only [Option.bind_eq_bind', Option.some_bind']
  rw [setB1_spec fname simD _ kidsD tail N bunch htail]
  simp only [Option.bind_eq_bind', Option.some_bind']
  rw [heapSet_sim fname simD _ _ kidsD tail N _ htail,
    heapSet_sim fname _ _ _ kidsD tail N _ htail,
    simDict_set_files simD hsim track]
  rw [deepcopy_sim fname track _ kidsD tail N (by omega)]
  simp only [Option.bind_eq_bind', Option.some_bind']
  rw [deepcopy_collider fname track bunch kidsD tail N (by omega)]
  simp only [Option.bind_eq_bind', Option.some_bind']
  simp only [Heap.alloc]
  rw [show ((preCells fname (simDictFiles track) (.leaf (.vint bunch)) kidsD ++ tail) ++
      [(N, simDictFiles track)] ++
      [(N + 1, tuneSubDict (62313/1000))] ++ [(N + 2, tuneSubDict (60320/1000))] ++
      [(N + 3, tuneSubDict 5)] ++ [(N + 4, tuneSubDict 5)] ++
      [(N + 5, knobsDict)] ++
      [(N + 6, tuneDictRefs (N + 1) (N + 2) (N + 3) (N + 4) (N + 5))] ++
      [(N + 7, ip2Dict)] ++ [(N + 8, ip8Dict)] ++
      [(N + 9, levelingDictRefs (N + 7) (N + 8))] ++
      [(N + 10, maskDict fname (.leaf (.vint bunch)))] ++
      [(N + 11, beambeamDictRefs (N + 10))] ++
      [(N + 12, colliderDictRefs (N + 6) (N + 9) (N + 11))] ++
      [(N + 13, [("config_simulation", Val.ref N), ("config_collider", Val.ref (N + 12)),
        ("log_file", Val.leaf (.vstr "tree_maker.log"))])]) =
      preCells fname (simDictFiles track) (.leaf (.vint bunch)) kidsD ++
        (tail ++ childCells N fname track bunch) from by
    simp [childCells, colliderCopyCells, childTopDict]]
  rw [insert_child_spec fname (simDictFiles track) (.leaf (.vint bunch)) kidsD
    (tail ++ childCells N fname track bunch) (N + 13 + 1) (jobId idx) (N + 13)
    (by
      intro c hc
      rcases List.mem_append.mp hc with h | h
      · exact htail c h
      · have := childCells_bound N fname track bunch c h
        omega)
    hkid]

/-! ## The whole scan loop, in closed form -/

/-- Running the scan loop from a heap in loop-invariant form appends one
`childCells` block and one children-dict entry per combination, and leaves
the template slots holding the last combination's values. -/
theorem runJobs_spec (fname : String) :
    ∀ (ps : List (Nat × Int)) (idx N : Nat) (simD : Dict) (b1 : Val) (kidsD : Dict)
      (tail : List (Nat × Dict)),
      23 ≤ N →
      (∀ c ∈ tail, 23 ≤ c.1) →
      (simD = simDict0 ∨ ∃ t, simD = simDictFiles t) →
      (∀ j, dictHasKey kidsD (jobId (idx + j)) = false) →
      runJobs 16 17 22 idx ps ⟨preCells fname simD b1 kidsD ++ tail, N⟩ =
        some ⟨preCells fname (lastSimDict ps simD) (lastB1 ps b1)
                (kidsD ++ kidsEntries idx N ps) ++ (tail ++ blocksFrom fname N ps),
              N + 14 * ps.length⟩ := by
  intro ps
  induction ps with
  | nil =>
      intro idx N simD b1 kidsD tail hN htail hsim hkids
      simp [runJobs, lastSimDict, lastB1, kidsEntries, blocksFrom]
  | cons p rest ih =>
      intro idx N simD b1 kidsD tail hN htail hsim hkids
      obtain ⟨track, bunch⟩ := p
      simp only [runJobs]
      rw [loopBody_spec fname simD b1 kidsD tail N idx track bunch hN htail hsim
        (by simpa using hkids 0)]
      simp only [Option.bind_eq_bind', Option.some_bind']
      rw [ih (idx + 1) (N + 14) (simDictFiles track) (Val.leaf (Leaf.vint bunch))
        (kidsD ++ [(jobId idx, Val.ref (N + 13))])
        (tail ++ childCells N fname track bunch)
        (by omega)
        (by
          intro c hc
          rcases List.mem_append.mp hc with h | h
          · exact htail c h
          · have := childCells_bound N fname track bunch c h; omega)
        (Or.inr ⟨track, rfl⟩)
        (by
          intro j
          rw [dictHasKey_append]
          have h1 : dictHasKey kidsD (jobId (idx + 1 + j)) = false := by
            have := hkids (1 + j)
            rwa [← Nat.add_assoc] at this
          have h2 : dictHasKey [(jobId idx, Val.ref (N + 13))]
              (jobId (idx + 1 + j)) = false := by
            by_cases heq : jobId idx = jobId (idx + 1 + j)
            · exact absurd (jobId_injective _ _ heq) (by omega)
            · simp [dictHasKey, dictGet, heq]
          rw [h1, h2]
          rfl)]
      simp only [lastSimDict, lastB1, kidsEntries, blocksFrom, List.length_cons,
        Option.some.injEq, Heap.mk.injEq]
      refine ⟨by simp [List.append_assoc], by omega⟩

/-- The whole modelled script, in closed form: for any filling-scheme data
whose families are all non-empty, it produces exactly `finalHeap`. -/
theorem scriptRun_spec (path : String) (hasBeam1 hasBeam2 : Bool)
    (families : List (List Int)) (bunches : List Int)
    (hb : l_bunch_to_scan families = some bunches) :
    scriptRun path hasBeam1 hasBeam2 families =
      some ⟨finalHeap (patternFname path hasBeam1 hasBeam2) bunches, 0, 4, 16, 17, 22⟩ := by
  have hrun := runJobs_spec (patternFname path hasBeam1 hasBeam2)
    (pyProduct (List.range 8) bunches) 0 23 simDict0 (.leaf .vnone) [] []
    (by omega) (by intro c hc; simp at hc) (Or.inl rfl) (fun j => rfl)
  rw [List.append_nil] at hrun
  simp only [List.nil_append] at hrun
  have hns : (Heap.get ⟨preCells (patternFname path hasBeam1 hasBeam2) simDict0
      (.leaf .vnone) [], 23⟩ 0).bind (fun d => dictGet d "n_split") =
      some (.leaf (.vint 8)) := rfl
  simp only [scriptRun, hb, scriptInit_eq, Option.bind_eq_bind', Option.some_bind']
  rw [hns]
  dsimp only
  rw [show ((8 : Int).toNat) = 8 from rfl]
  rw [hrun]
  simp only [Option.bind_eq_bind', Option.some_bind', Option.pure_def]
  simp only [finalHeap, jobsOf]

/-! ## Reading the final heap -/

/-- `itertools.product` enumerates `|A| * |B|` combinations. -/
theorem pyProduct_length {α β : Type} (A : List α) (B : List β) :
    (pyProduct A B).length = A.length * B.length := by
  induction A with
  | nil => simp [pyProduct]
  | cons a rest ih =>
      simp only [pyProduct, List.flatMap_cons, List.length_append, List.length_map,
        List.length_cons] at *
      rw [ih]
      ring

/-- The scan enumerates `8 * |bunches|` combinations. -/
theorem jobsOf_length (bunches : List Int) :
    (jobsOf bunches).length = 8 * bunches.length := by
  simp [jobsOf, pyProduct_length]

/-- One children-dict entry per combination. -/
theorem kidsEntries_length :
    ∀ (ps : List (Nat × Int)) (idx N : Nat), (kidsEntries idx N ps).length = ps.length := by
  intro ps
  induction ps with
  | nil => intro idx N; rfl
  | cons p rest ih => intro idx N; simp [kidsEntries, ih]

/-- The children-dict keys, in insertion order, are the job identifiers of
the consecutive enumeration indices. -/
theorem kidsEntries_keys :
    ∀ (ps : List (Nat × Int)) (idx N : Nat),
      (kidsEntries idx N ps).map Prod.fst =
        (List.range ps.length).map (fun j => jobId (idx + j)) := by
  intro ps
  induction ps with
  | nil => intro idx N; rfl
  | cons p rest ih =>
      intro idx N
      rw [kidsEntries]
      simp only [List.map_cons, List.length_cons, List.range_succ_eq_map, List.map_map]
      rw [ih (idx + 1) (N + 14)]
      congr 1
      apply List.map_congr_left
      intro a _
      simp only [Function.comp_apply]
      congr 1
      omega

/-- Looking the `i`-th job identifier up in the children dict yields the
`i`-th child node. -/
theorem kidsEntries_dictGet :
    ∀ (ps : List (Nat × Int)) (idx N i : Nat), i < ps.length →
      dictGet (kidsEntries idx N ps) (jobId (idx + i)) =
        some (.ref (N + 14 * i + 13)) := by
  intro ps
  induction ps with
  | nil => intro idx N i hi; simp at hi
  | cons p rest ih =>
      intro idx N i hi
      match i with
      | 0 => simp [kidsEntries, dictGet]
      | i + 1 =>
          have hne : jobId idx ≠ jobId (idx + (i + 1)) := fun heq => by
            have := jobId_injective _ _ heq
            omega
          rw [kidsEntries, dictGet, if_neg hne]
          have h := ih (idx + 1) (N + 14) i (by simpa using hi)
          rw [show idx + 1 + i = idx + (i + 1) from by omega] at h
          rw [h]
          congr 2
          ring

/-- A lookup misses a cell list in which the address does not occur. -/
theorem assocFind_eq_none (l : List (Nat × Dict)) (a : Nat)
    (h : ∀ c ∈ l, c.1 ≠ a) : assocFind l a = none := by
  induction l with
  | nil => rfl
  | cons c rest ih =>
      obtain ⟨x, d⟩ := c
      rw [assocFind, if_neg (h (x, d) (by simp))]
      exact ih (fun c' hc' => h c' (by simp [hc']))

/-- Every block cell lies in the loop's address range. -/
theorem blocksFrom_bound (fname : String) :
    ∀ (ps : List (Nat × Int)) (N : Nat) (c : Nat × Dict), c ∈ blocksFrom fname N ps →
      N ≤ c.1 ∧ c.1 < N + 14 * ps.length := by
  intro ps
  induction ps with
  | nil => intro N c hc; simp [blocksFrom] at hc
  | cons p rest ih =>
      intro N c hc
      obtain ⟨t, b⟩ := p
      rw [blocksFrom] at hc
      rcases List.mem_append.mp hc with h | h
      · have := childCells_bound N fname t b c h
        simp only [List.length_cons]
        omega
      · have := ih (N + 14) c h
        simp only [List.length_cons]
        omega

/-- In the `i`-th block's address window, the loop's blocks answer lookups
exactly like the `i`-th child block. -/
theorem assocFind_blocksFrom (fname : String) :
    ∀ (ps : List (Nat × Int)) (N i : Nat) (hi : i < ps.length) (a : Nat),
      N + 14 * i ≤ a → a ≤ N + 14 * i + 13 →
      assocFind (blocksFrom fname N ps) a =
        assocFind (childCells (N + 14 * i) fname (ps.get ⟨i, hi⟩).1
          (ps.get ⟨i, hi⟩).2) a := by
  intro ps
  induction ps with
  | nil => intro N i hi; simp at hi
  | cons p rest ih =>
      intro N i hi a ha1 ha2
      obtain ⟨t, b⟩ := p
      match i with
      | 0 =>
          rw [blocksFrom]
          simp only [Nat.mul_zero, Nat.add_zero, List.get] at ha1 ha2 ⊢
          rcases hsome : assocFind (childCells N fname t b) a with _ | d
          · exfalso
            obtain ⟨c, hc⟩ : ∃ c ≤ 13, a = N + c := ⟨a - N, by omega, by omega⟩
            obtain ⟨hc13, rfl⟩ := hc
            revert hsome
            interval_cases c <;>
              simp [childCells, colliderCopyCells, childTopDict, assocFind,
                self_eq_add_right, add_right_inj]
          · rw [assocFind_append_of_some hsome]
      | i + 1 =>
          rw [blocksFrom]
          rw [assocFind_append_of_none (assocFind_eq_none _ _ (fun c hc => by
            have := childCells_bound N fname t b c hc
            omega))]
          have h := ih (N + 14) i (by simpa using hi) a (by omega) (by omega)
          rw [h, show N + 14 + 14 * i = N + 14 * (i + 1) from by ring]
          simp only [List.get]

/-- Looking up offset `c` inside one child block. -/
theorem assocFind_childCells (N : Nat) (fname : String) (track : Nat) (bunch : Int)
    (c : Nat) (hc : c ≤ 13) :
    assocFind (childCells N fname track bunch) (N + c) =
      childCellAt N fname track bunch c := by
  interval_cases c <;>
    simp [childCells, colliderCopyCells, childTopDict, assocFind, childCellAt,
      self_eq_add_right, add_right_inj]

/-- Reading offset `c` of the `i`-th child block in the final heap. -/
theorem finalHeap_get_block (fname : String) (bunches : List Int) (i c : Nat)
    (hi : i < (jobsOf bunches).length) (hc : c ≤ 13) :
    (finalHeap fname bunches).get (23 + 14 * i + c) =
      childCellAt (23 + 14 * i) fname ((jobsOf bunches).get ⟨i, hi⟩).1
        ((jobsOf bunches).get ⟨i, hi⟩).2 c := by
  show assocFind
      (preCells fname (lastSimDict (jobsOf bunches) simDict0)
          (lastB1 (jobsOf bunches) (.leaf .vnone)) (kidsEntries 0 23 (jobsOf bunches)) ++
        blocksFrom fname 23 (jobsOf bunches)) (23 + 14 * i + c) = _
  rw [assocFind_append_of_none (assocFind_preCells_none _ _ _ _ (by omega))]
  rw [assocFind_blocksFrom fname (jobsOf bunches) 23 i hi _ (by omega) (by omega)]
  exact assocFind_childCells _ _ _ _ c hc

/-- Cell 20 of the final heap: the children dict of `base_collider`. -/
theorem finalHeap_get_20 (fname : String) (bunches : List Int) :
    (finalHeap fname bunches).get 20 = some (kidsEntries 0 23 (jobsOf bunches)) := rfl

/-- Cell 21 of the final heap: the `base_collider` node. -/
theorem finalHeap_get_21 (fname : String) (bunches : List Int) :
    (finalHeap fname bunches).get 21 = some baseDict := rfl

/-- Cell 22 of the final heap: the tree root. -/
theorem finalHeap_get_22 (fname : String) (bunches : List Int) :
    (finalHeap fname bunches).get 22 = some outerDict := rfl

/-- Cell 0 of the final heap: the module-level `d_config_particles`. -/
theorem finalHeap_get_0 (fname : String) (bunches : List Int) :
    (finalHeap fname bunches).get 0 = some particlesDict := rfl

/-- Cell 4 of the final heap: the module-level `d_config_mad`. -/
theorem finalHeap_get_4 (fname : String) (bunches : List Int) :
    (finalHeap fname bunches).get 4 = some madDict := rfl

/-- Cell 16 of the final heap: the module-level `d_config_collider`. -/
theorem finalHeap_get_16 (fname : String) (bunches : List Int) :
    (finalHeap fname bunches).get 16 = some (colliderDictRefs 9 13 15) := rfl

/-- Cell 17 of the final heap: the module-level `d_config_simulation`. -/
theorem finalHeap_get_17 (fname : String) (bunches : List Int) :
    (finalHeap fname bunches).get 17 =
      some (lastSimDict (jobsOf bunches) simDict0) := rfl

/-- Path lookup splits over path concatenation. -/
theorem lookupPath_append (h : Heap) (v : Val) (l1 l2 : List String) :
    lookupPath h v (l1 ++ l2) =
      (lookupPath h v l1).bind (fun v' => lookupPath h v' l2) := by
  induction l1 generalizing v with
  | nil => simp [lookupPath]
  | cons k rest ih =>
      simp only [List.cons_append, lookupPath]
      cases lookupStep h v k with
      | none => rfl
      | some v' => simp [ih]

/-- The bunch axis has one value per identical-bunch family. -/
theorem l_bunch_to_scan_length :
    ∀ (families : List (List Int)) (bunches : List Int),
      l_bunch_to_scan families = some bunches → bunches.length = families.length := by
  intro families
  induction families with
  | nil =>
      intro bunches hb
      rw [show l_bunch_to_scan ([] : List (List Int)) = some [] from rfl] at hb
      obtain rfl := Option.some.inj hb
      rfl
  | cons fam rest ih =>
      intro bunches hb
      simp only [l_bunch_to_scan, List.mapM_cons] at hb
      rcases hh : fam.head? with _ | x <;> rw [hh] at hb
      · simp at hb
      · rcases hr : rest.mapM (fun fam => fam.head?) with _ | xs <;> rw [hr] at hb
        · simp at hb
        · simp at hb
          subst hb
          simp [ih xs hr]

/-- Following `children["base_collider"]["children"][jobId i]` in the final
heap reaches the `i`-th child node. -/
theorem finalHeap_lookup_child (fname : String) (bunches : List Int) (i : Nat)
    (hi : i < (jobsOf bunches).length) :
    lookupPath (finalHeap fname bunches) (.ref 22)
        ["base_collider", "children", jobId i] =
      some (.ref (23 + 14 * i + 13)) := by
  have hk := kidsEntries_dictGet (jobsOf bunches) 0 23 i hi
  rw [Nat.zero_add] at hk
  simp [lookupPath, lookupStep, finalHeap_get_22, finalHeap_get_21, finalHeap_get_20,
    outerDict, baseDict, dictGet, hk]

/-- The `i`-th child node's dict. -/
theorem finalHeap_child_top (fname : String) (bunches : List Int) (i : Nat)
    (hi : i < (jobsOf bunches).length) :
    (finalHeap fname bunches).get (23 + 14 * i + 13) =
      some (childTopDict (23 + 14 * i)) := by
  have h := finalHeap_get_block fname bunches i 13 hi (by omega)
  simpa [childCellAt] using h

/-- Effect of a cell update on lookups, in one statement. -/
theorem assocFind_map_set (l : List (Nat × Dict)) (a : Nat) (key : String) (v : Val)
    (b : Nat) :
    assocFind (l.map (fun c => if c.1 = a then (c.1, dictSet c.2 key v) else c)) b =
      if b = a then (assocFind l b).map (fun d => dictSet d key v)
      else assocFind l b := by
  induction l with
  | nil => by_cases hba : b = a <;> simp [assocFind, hba]
  | cons c rest ih =>
      obtain ⟨x, d⟩ := c
      rw [List.map_cons]
      by_cases hxa : x = a
      · rw [if_pos hxa]
        by_cases hxb : x = b
        · have hba : b = a := hxb.symm.trans hxa
          rw [assocFind, if_pos hxb, if_pos hba, assocFind, if_pos hxb, Option.map_some']
        · rw [assocFind, if_neg hxb, ih]
          by_cases hba : b = a
          · rw [if_pos hba, if_pos hba, assocFind, if_neg hxb]
          · rw [if_neg hba, if_neg hba, assocFind, if_neg hxb]
      · rw [if_neg hxa]
        by_cases hxb : x = b
        · have hba : ¬ b = a := fun h => hxa (hxb.trans h)
          rw [assocFind, if_pos hxb, if_neg hba, assocFind, if_pos hxb]
        · rw [assocFind, if_neg hxb, ih]
          by_cases hba : b = a
          · rw [if_pos hba, if_pos hba, assocFind, if_neg hxb]
          · rw [if_neg hba, if_neg hba, assocFind, if_neg hxb]

/-- Updating one cell leaves every other cell's lookup unchanged. -/
theorem heapGet_set_ne (h : Heap) (a b : Nat) (key : String) (v : Val) (hba : b ≠ a) :
    (h.set a key v).get b = h.get b := by
  simp only [Heap.set, Heap.get]
  rw [assocFind_map_set, if_neg hba]

/-- Reading the updated cell sees the updated dict. -/
theorem heapGet_set_same (h : Heap) (a : Nat) (key : String) (v : Val) :
    (h.set a key v).get a = (h.get a).map (fun d => dictSet d key v) := by
  simp only [Heap.set, Heap.get]
  rw [assocFind_map_set, if_pos rfl]

/-- In the final heap, the children dict is the accumulated entries list. -/
theorem jobChildrenDict_final (path : String) (hasBeam1 hasBeam2 : Bool)
    (bunches : List Int) :
    jobChildrenDict ⟨finalHeap (patternFname path hasBeam1 hasBeam2) bunches,
        0, 4, 16, 17, 22⟩ =
      some (kidsEntries 0 23 (jobsOf bunches)) := by
  simp [jobChildrenDict, lookupPath, lookupStep, finalHeap_get_22, finalHeap_get_21,
    finalHeap_get_20, outerDict, baseDict, dictGet]

/-- C2: For every pair of non-empty scan axes — the split axis of
`n_split = 8` values and the bunch axis holding the integer first member of
each beam-1 identical-bunch family — the expansion produces exactly
`n_split * (number of families)` job variants. -/
theorem C2_variant_count (path : String) (hasBeam1 hasBeam2 : Bool)
    (families : List (List Int)) (bunches : List Int) (res : ScriptResult)
    (hfam : families ≠ [])
    (hb : l_bunch_to_scan families = some bunches)
    (hrun : scriptRun path hasBeam1 hasBeam2 families = some res) :
    (jobChildrenDict res).map List.length = some (8 * families.length) ∧
    dictGet particlesDict "n_split" = some (.leaf (.vint 8)) := by
  have hspec := scriptRun_spec path hasBeam1 hasBeam2 families bunches hb
  rw [hrun] at hspec
  obtain rfl := Option.some.inj hspec
  refine ⟨?_, rfl⟩
  rw [jobChildrenDict_final]
  rw [Option.map_some']
  rw [kidsEntries_length, jobsOf_length, l_bunch_to_scan_length families bunches hb]

/-- C3: the combinations are enumerated with the last-declared (bunch) axis
varying fastest; the job identifiers, assigned in that order, are the
strings `xtrack_NNNN` for the contiguous zero-based enumeration indices:
the children-dict keys are `jobId 0, jobId 1, ...` in order, `jobId` is
injective, each identifier is `"xtrack_"` plus the 4-zero-padded index
whose digits decode back to the index, and the spec's example order for
split `(0 1)` and bunch `(100 200 300)` holds. -/
theorem C3_job_identifiers (path : String) (hasBeam1 hasBeam2 : Bool)
    (families : List (List Int)) (bunches : List Int) (res : ScriptResult)
    (hfam : families ≠ [])
    (hb : l_bunch_to_scan families = some bunches)
    (hrun : scriptRun path hasBeam1 hasBeam2 families = some res) :
    (∃ kids : Dict, jobChildrenDict res = some kids ∧
      kids.map Prod.fst = (List.range (8 * bunches.length)).map jobId) ∧
    (∀ m n : Nat, jobId m = jobId n → m = n) ∧
    (∀ n : Nat, jobId n = "xtrack_" ++ pyFormatZeroPad 4 n ∧
      decVal (pyFormatZeroPad 4 n).data = n) ∧
    pyProduct [0, 1] ([100, 200, 300] : List Int) =
      [(0, 100), (0, 200), (0, 300), (1, 100), (1, 200), (1, 300)] := by
  have hspec := scriptRun_spec path hasBeam1 hasBeam2 families bunches hb
  rw [hrun] at hspec
  obtain rfl := Option.some.inj hspec
  refine ⟨⟨kidsEntries 0 23 (jobsOf bunches), jobChildrenDict_final _ _ _ _, ?_⟩,
    jobId_injective, fun n => ⟨rfl, decVal_pyFormatZeroPad 4 n⟩, rfl⟩
  rw [kidsEntries_keys, jobsOf_length]
  apply List.map_congr_left
  intro a _
  rw [Nat.zero_add]

/-- C4: every produced job variant stores, in its own `config_simulation`
deep copy, the particle file path derived from the variant's own split-axis
value, zero-padded to two digits; e.g. split value 3 yields a path
containing `03`. -/
theorem C4_particle_file_per_split (path : String) (hasBeam1 hasBeam2 : Bool)
    (families : List (List Int)) (bunches : List Int) (res : ScriptResult)
    (hb : l_bunch_to_scan families = some bunches)
    (hrun : scriptRun path hasBeam1 hasBeam2 families = some res) :
    (∀ (i : Nat) (hi : i < (jobsOf bunches).length),
      lookupPath res.heap (.ref res.aChildren)
          ["base_collider", "children", jobId i, "config_simulation", "particle_file"] =
        some (.leaf (.vstr (particleFileName ((jobsOf bunches).get ⟨i, hi⟩).1)))) ∧
    particleFileName 3 = "../particles/03.parquet" := by
  have hspec := scriptRun_spec path hasBeam1 hasBeam2 families bunches hb
  rw [hrun] at hspec
  obtain rfl := Option.some.inj hspec
  refine ⟨?_, rfl⟩
  intro i hi
  rw [show ["base_collider", "children", jobId i, "config_simulation", "particle_file"] =
    ["base_collider", "children", jobId i] ++ ["config_simulation", "particle_file"]
    from rfl]
  rw [lookupPath_append, finalHeap_lookup_child _ _ i hi, Option.some_bind]
  have htop := finalHeap_child_top (patternFname path hasBeam1 hasBeam2) bunches i hi
  have hsim := finalHeap_get_block (patternFname path hasBeam1 hasBeam2) bunches i 0 hi
    (by omega)
  rw [show (23 + 14 * i + 0) = 23 + 14 * i from by omega] at hsim
  rw [show childCellAt (23 + 14 * i) (patternFname path hasBeam1 hasBeam2)
      ((jobsOf bunches).get ⟨i, hi⟩).1 ((jobsOf bunches).get ⟨i, hi⟩).2 0 =
    some (simDictFiles ((jobsOf bunches).get ⟨i, hi⟩).1) from rfl] at hsim
  simp [lookupPath, lookupStep, htop, hsim, childTopDict, dictGet, simDictFiles, simDict0]

/-- In the final heap, the mask dict of the `i`-th variant is reached by the
subscript chain through its collider copy, and holds the variant's own
bunch value. -/
theorem finalHeap_child_mask (fname : String) (bunches : List Int) (i : Nat)
    (hi : i < (jobsOf bunches).length) :
    lookupPath (finalHeap fname bunches) (.ref 22)
        ["base_collider", "children", jobId i, "config_collider", "config_beambeam",
         "mask_with_filling_pattern"] =
      some (.ref (23 + 14 * i + 10)) ∧
    (finalHeap fname bunches).get (23 + 14 * i + 10) =
      some (maskDict fname (.leaf (.vint ((jobsOf bunches).get ⟨i, hi⟩).2))) := by
  have htop := finalHeap_child_top fname bunches i hi
  have h12 := finalHeap_get_block fname bunches i 12 hi (by omega)
  have h11 := finalHeap_get_block fname bunches i 11 hi (by omega)
  have h10 := finalHeap_get_block fname bunches i 10 hi (by omega)
  rw [show childCellAt (23 + 14 * i) fname ((jobsOf bunches).get ⟨i, hi⟩).1
      ((jobsOf bunches).get ⟨i, hi⟩).2 12 =
    some (colliderDictRefs (23 + 14 * i + 6) (23 + 14 * i + 9) (23 + 14 * i + 11))
    from rfl] at h12
  rw [show childCellAt (23 + 14 * i) fname ((jobsOf bunches).get ⟨i, hi⟩).1
      ((jobsOf bunches).get ⟨i, hi⟩).2 11 =
    some (beambeamDictRefs (23 + 14 * i + 10)) from rfl] at h11
  rw [show childCellAt (23 + 14 * i) fname ((jobsOf bunches).get ⟨i, hi⟩).1
      ((jobsOf bunches).get ⟨i, hi⟩).2 10 =
    some (maskDict fname (.leaf (.vint ((jobsOf bunches).get ⟨i, hi⟩).2))) from rfl] at h10
  refine ⟨?_, h10⟩
  rw [show ["base_collider", "children", jobId i, "config_collider", "config_beambeam",
      "mask_with_filling_pattern"] =
    ["base_collider", "children", jobId i] ++
      ["config_collider", "config_beambeam", "mask_with_filling_pattern"] from rfl]
  rw [lookupPath_append, finalHeap_lookup_child _ _ i hi, Option.some_bind]
  simp [lookupPath, lookupStep, htop, childTopDict, dictGet, h12, h11,
    colliderDictRefs, beambeamDictRefs]

/-- A mask-dict lookup at any key other than `i_bunch_b1` does not depend
on the `i_bunch_b1` slot. -/
theorem dictGet_maskDict_ne (fname : String) (b1 b1' : Val) (key : String)
    (h : key ≠ "i_bunch_b1") :
    dictGet (maskDict fname b1) key = dictGet (maskDict fname b1') key := by
  simp only [maskDict, dictGet]
  by_cases h1 : "pattern_fname" = key
  · rw [if_pos h1, if_pos h1]
  · rw [if_neg h1, if_neg h1,
      if_neg (show ¬ "i_bunch_b1" = key from fun hh => h hh.symm),
      if_neg (show ¬ "i_bunch_b1" = key from fun hh => h hh.symm)]

/-- C9: every produced job variant records `i_bunch_b2 = 1144` (the fixed
literal of line 179 — the scan loop writes only `i_bunch_b1`), and every
field of `mask_with_filling_pattern` other than `i_bunch_b1` reads the same
in all variants. -/
theorem C9_i_bunch_b2_fixed (path : String) (hasBeam1 hasBeam2 : Bool)
    (families : List (List Int)) (bunches : List Int) (res : ScriptResult)
    (hb : l_bunch_to_scan families = some bunches)
    (hrun : scriptRun path hasBeam1 hasBeam2 families = some res) :
    (∀ (i : Nat), i < (jobsOf bunches).length →
      lookupPath res.heap (.ref res.aChildren)
          ["base_collider", "children", jobId i, "config_collider", "config_beambeam",
           "mask_with_filling_pattern", "i_bunch_b2"] =
        some (.leaf (.vint 1144))) ∧
    (∀ (i j : Nat), i < (jobsOf bunches).length → j < (jobsOf bunches).length →
      ∀ key : String, key ≠ "i_bunch_b1" →
      lookupPath res.heap (.ref res.aChildren)
          ["base_collider", "children", jobId i, "config_collider", "config_beambeam",
           "mask_with_filling_pattern", key] =
        lookupPath res.heap (.ref res.aChildren)
          ["base_collider", "children", jobId j, "config_collider", "config_beambeam",
           "mask_with_filling_pattern", key]) := by
  have hspec := scriptRun_spec path hasBeam1 hasBeam2 families bunches hb
  rw [hrun] at hspec
  obtain rfl := Option.some.inj hspec
  have hread : ∀ (i : Nat) (hi : i < (jobsOf bunches).length) (key : String),
      lookupPath (finalHeap (patternFname path hasBeam1 hasBeam2) bunches) (.ref 22)
          ["base_collider", "children", jobId i, "config_collider", "config_beambeam",
           "mask_with_filling_pattern", key] =
        dictGet (maskDict (patternFname path hasBeam1 hasBeam2)
          (.leaf (.vint ((jobsOf bunches).get ⟨i, hi⟩).2))) key := by
    intro i hi key
    obtain ⟨hpath, hget⟩ := finalHeap_child_mask
      (patternFname path hasBeam1 hasBeam2) bunches i hi
    rw [show ["base_collider", "children", jobId i, "config_collider", "config_beambeam",
        "mask_with_filling_pattern", key] =
      ["base_collider", "children", jobId i, "config_collider", "config_beambeam",
        "mask_with_filling_pattern"] ++ [key] from rfl]
    rw [lookupPath_append, hpath, Option.some_bind]
    simp [lookupPath, lookupStep, hget]
  refine ⟨fun i hi => ?_, fun i j hi hj key hkey => ?_⟩
  · rw [hread i hi "i_bunch_b2"]
    rfl
  · rw [hread i hi key, hread j hj key]
    exact dictGet_maskDict_ne _ _ _ _ hkey

/-- C10: the generation-1 `base_collider` node stores `config_particles`
and `config_mad` as direct references to the module-level template dicts
(no deep copy), so mutating those templates after tree assembly is
observable through the generation-1 node. -/
theorem C10_gen1_shared_refs (path : String) (hasBeam1 hasBeam2 : Bool)
    (families : List (List Int)) (bunches : List Int) (res : ScriptResult)
    (hb : l_bunch_to_scan families = some bunches)
    (hrun : scriptRun path hasBeam1 hasBeam2 families = some res) :
    (∃ base : Dict,
      lookupPath res.heap (.ref res.aChildren) ["base_collider"] = some (.ref 21) ∧
      res.heap.get 21 = some base ∧
      dictGet base "config_particles" = some (.ref res.aParticles) ∧
      dictGet base "config_mad" = some (.ref res.aMad)) ∧
    (∀ v : Val,
      lookupPath (res.heap.set res.aParticles "r_min" v) (.ref res.aChildren)
        ["base_collider", "config_particles", "r_min"] = some v) ∧
    (∀ v : Val,
      lookupPath (res.heap.set res.aMad "optics_file" v) (.ref res.aChildren)
        ["base_collider", "config_mad", "optics_file"] = some v) := by
  have hspec := scriptRun_spec path hasBeam1 hasBeam2 families bunches hb
  rw [hrun] at hspec
  obtain rfl := Option.some.inj hspec
  refine ⟨⟨baseDict, ?_, finalHeap_get_21 _ _, rfl, rfl⟩, fun v => ?_, fun v => ?_⟩
  · simp [lookupPath, lookupStep, finalHeap_get_22, outerDict, dictGet]
  · have hg22 := heapGet_set_ne (finalHeap (patternFname path hasBeam1 hasBeam2) bunches)
      0 22 "r_min" v (by omega)
    have hg21 := heapGet_set_ne (finalHeap (patternFname path hasBeam1 hasBeam2) bunches)
      0 21 "r_min" v (by omega)
    have hg0 := heapGet_set_same (finalHeap (patternFname path hasBeam1 hasBeam2) bunches)
      0 "r_min" v
    rw [finalHeap_get_0, Option.map_some'] at hg0
    simp [lookupPath, lookupStep, hg22, hg21, hg0, finalHeap_get_22, finalHeap_get_21,
      outerDict, baseDict, dictGet, particlesDict, dictSet, dictHasKey]
  · have hg22 := heapGet_set_ne (finalHeap (patternFname path hasBeam1 hasBeam2) bunches)
      4 22 "optics_file" v (by omega)
    have hg21 := heapGet_set_ne (finalHeap (patternFname path hasBeam1 hasBeam2) bunches)
      4 21 "optics_file" v (by omega)
    have hg4 := heapGet_set_same (finalHeap (patternFname path hasBeam1 hasBeam2) bunches)
      4 "optics_file" v
    rw [finalHeap_get_4, Option.map_some'] at hg4
    simp [lookupPath, lookupStep, hg22, hg21, hg4, finalHeap_get_22, finalHeap_get_21,
      outerDict, baseDict, dictGet, madDict, dictSet, dictHasKey]

/-- C5 (amended): if the bunch axis is empty (no identical-bunch families),
the expansion silently succeeds and produces zero job variants; no error of
any kind is raised. -/
theorem C5_empty_axis_silent (path : String) (hasBeam1 hasBeam2 : Bool) :
    (scriptRun path hasBeam1 hasBeam2 []).map
        (fun r => (jobChildrenDict r).map List.length) =
      some (some 0) := by
  have hspec := scriptRun_spec path hasBeam1 hasBeam2 [] [] rfl
  rw [hspec, Option.map_some', jobChildrenDict_final, Option.map_some',
    kidsEntries_length]
  rfl

/-- C5 counterexample: at the script's own filling-scheme path with an
empty family list, the expansion does not fail — it succeeds and produces
zero job variants, contradicting the claimed `InvalidAxisError`. -/
theorem C5_counterexample :
    (scriptRun "master_jobs/filling_scheme/25ns_2228b_2216_1686_2112_hybrid_8b4e_2x56b_25ns_3x48b_12inj_with_identical_bunches.json"
        true true []).map (fun r => (jobChildrenDict r).map List.length) =
      some (some 0) := by
  rfl

/-- C6: with check-bunch-number enabled and beam 1 unset, the prompt loop
accepts only `y` (adopting the computed worst bunch) or `n` (requiring a
typed integer); any other reply re-prompts — one loop iteration consuming
the reply, with `i_bunch_b1` still unset — rather than crashing, until the
index is set. -/
theorem C6_prompt_loop (worst : Int) (reply : String) (rest : List String)
    (h1 : reply ≠ "y") (h2 : reply ≠ "n") :
    promptLoopB1 worst (reply :: rest) = promptLoopB1 worst rest ∧
    promptLoopB1 worst ("y" :: rest) = .ok worst rest ∧
    (∀ (s : String) (v : Int), pyInt s = some v →
      promptLoopB1 worst ("n" :: s :: rest) = .ok v rest) := by
  refine ⟨?_, ?_, fun s v hv => ?_⟩
  · conv_lhs => rw [promptLoopB1.eq_def]
    dsimp only
    rw [if_neg h1, if_neg h2]
  · rfl
  · have hred : promptLoopB1 worst ("n" :: s :: rest) =
        match pyInt s with
        | some v => .ok v rest
        | none => .valueError s := rfl
    rw [hred, hv]

/-- C7: with check-bunch-number enabled, an unset beam-2 index is always
resolved automatically to the computed worst bunch, consuming no input;
an unset beam-1 index goes through the interactive prompt (it consumes
input, and with no input available the block fails where the beam-2 path
cannot) — the asymmetry between the two beams on the fallback path. -/
theorem C7_beam2_automatic (worst_b1 worst_b2 v1 v2 : Int) (inputs : List String) :
    checkBunchNumberBlock worst_b1 worst_b2 (some v1) none inputs =
      some ((v1, worst_b2), inputs) ∧
    checkBunchNumberBlock worst_b1 worst_b2 none (some v2) [] = none ∧
    checkBunchNumberBlock worst_b1 worst_b2 none none [] = none ∧
    checkBunchNumberBlock worst_b1 worst_b2 none none ["y"] =
      some ((worst_b1, worst_b2), []) := by
  exact ⟨rfl, rfl, rfl, rfl⟩

/-- The scanned prefix never matches the pattern, so replacement happens
exactly at the final occurrence. -/
theorem listReplace_single_suffix (pat rep : List Char) (hpat : pat ≠ []) :
    ∀ (q : List Char) (fuel : Nat), (q ++ pat).length ≤ fuel →
      (∀ i, i < q.length → ¬ pat.isPrefixOf ((q ++ pat).drop i)) →
      listReplace pat rep fuel (q ++ pat) = q ++ rep := by
  intro q
  induction q with
  | nil =>
      intro fuel hfuel _
      obtain ⟨c, pat', rfl⟩ : ∃ c pat', pat = c :: pat' := by
        cases pat with
        | nil => exact absurd rfl hpat
        | cons c pat' => exact ⟨c, pat', rfl⟩
      obtain ⟨f, rfl⟩ : ∃ f, fuel = f + 1 := by
        cases fuel with
        | zero => simp at hfuel
        | succ f => exact ⟨f, rfl⟩
      rw [List.nil_append, listReplace,
        if_pos ⟨hpat, List.isPrefixOf_iff_prefix.mpr (List.prefix_refl _)⟩]
      simp [List.drop_length, listReplace]
  | cons c q' ih =>
      intro fuel hfuel hno
      obtain ⟨f, rfl⟩ : ∃ f, fuel = f + 1 := by
        cases fuel with
        | zero => simp at hfuel
        | succ f => exact ⟨f, rfl⟩
      rw [List.cons_append, listReplace, if_neg (by
        intro hand
        exact hno 0 (by simp) (by simpa using hand.2))]
      rw [List.cons_append]
      congr 1
      exact ih f (by simpa using hfuel) (fun i hi => by
        have := hno (i + 1) (by simpa using hi)
        simpa using this)

/-- C8: the `pattern_fname` recorded in the beam-beam configuration equals
the original filling-scheme path when the loaded scheme already has both
`beam1` and `beam2` keys, and otherwise equals the original path with its
`.json` suffix replaced by `_converted.json` (the sibling file written on
reformat); every job variant's mask records the same value. -/
theorem C8_pattern_fname (path : String) (q : List Char) (hasBeam1 hasBeam2 : Bool)
    (families : List (List Int)) (bunches : List Int) (res : ScriptResult)
    (hsplit : path.data = q ++ ".json".data)
    (honce : ∀ i, i < q.length → ¬ ".json".data.isPrefixOf ((q ++ ".json".data).drop i))
    (hb : l_bunch_to_scan families = some bunches)
    (hrun : scriptRun path hasBeam1 hasBeam2 families = some res) :
    patternFname path hasBeam1 hasBeam2 =
      (if hasBeam1 && hasBeam2 then path
       else String.mk (q ++ "_converted.json".data)) ∧
    (∀ (i : Nat), i < (jobsOf bunches).length →
      lookupPath res.heap (.ref res.aChildren)
          ["base_collider", "children", jobId i, "config_collider", "config_beambeam",
           "mask_with_filling_pattern", "pattern_fname"] =
        some (.leaf (.vstr (patternFname path hasBeam1 hasBeam2)))) := by
  have hspec := scriptRun_spec path hasBeam1 hasBeam2 families bunches hb
  rw [hrun] at hspec
  obtain rfl := Option.some.inj hspec
  constructor
  · rw [patternFname]
    by_cases hbb : hasBeam1 && hasBeam2
    · rw [if_pos hbb, if_pos hbb]
    · rw [if_neg hbb, if_neg hbb, pyReplace]
      congr 1
      rw [hsplit]
      exact listReplace_single_suffix ".json".data "_converted.json".data (by decide)
        q (q ++ ".json".data).length (le_refl _) honce
  · intro i hi
    obtain ⟨hpath, hget⟩ := finalHeap_child_mask
      (patternFname path hasBeam1 hasBeam2) bunches i hi
    rw [show ["base_collider", "children", jobId i, "config_collider", "config_beambeam",
        "mask_with_filling_pattern", "pattern_fname"] =
      ["base_collider", "children", jobId i, "config_collider", "config_beambeam",
        "mask_with_filling_pattern"] ++ ["pattern_fname"] from rfl]
    rw [lookupPath_append, hpath, Option.some_bind]
    simp [lookupPath, lookupStep, hget, maskDict, dictGet]

/-! ## Aliasing: deep-copy isolation of the job variants -/

/-- Mutating a cell that is not dereferenced when reading a value leaves
that read unchanged: reads depend only on the reachable cells. -/
theorem readVal_set_outside :
    ∀ (fuel : Nat) (h : Heap) (a : Nat) (key : String) (v w : Val),
      a ∉ reachVal h fuel w →
      readVal (h.set a key v) fuel w = readVal h fuel w := by
  intro fuel
  induction fuel with
  | zero =>
      intro h a key v w hw
      cases w with
      | leaf l => rfl
      | ref b => rfl
  | succ fuel ih =>
      intro h a key v w hw
      cases w with
      | leaf l => rfl
      | ref b =>
          have hab : b ≠ a := by
            intro heq
            exact hw (by simp [reachVal, heq])
          have hset : (h.set a key v).get b = h.get b := heapGet_set_ne h a b key v hab
          simp only [reachVal] at hw
          cases hgb : h.get b with
          | none => simp [readVal, hset, hgb]
          | some d =>
              rw [hgb] at hw
              have hd : a ∉ reachKidsAux (reachVal h fuel) d := by
                intro hmem
                exact hw (by simp [hmem])
              simp only [readVal, hset, hgb]
              congr 1
              have hkids : ∀ (d' : Dict), a ∉ reachKidsAux (reachVal h fuel) d' →
                  readKidsAux (readVal (h.set a key v) fuel) d' =
                    readKidsAux (readVal h fuel) d' := by
                intro d'
                induction d' with
                | nil => intro _; rfl
                | cons p rest ihd =>
                    intro hd'
                    obtain ⟨kk, ww⟩ := p
                    have h1 : a ∉ reachVal h fuel ww := fun hmm =>
                      hd' (by simp [reachKidsAux, hmm])
                    have h2 : a ∉ reachKidsAux (reachVal h fuel) rest := fun hmm =>
                      hd' (by simp [reachKidsAux, hmm])
                    simp only [readKidsAux]
                    rw [ih h a key v ww h1, ihd h2]
              exact hkids d hd

/-- Reaching through a dict of scalars stops at its cell. -/
theorem reach_leafDict (h : Heap) (fuel : Nat) (a : Nat) (d : Dict)
    (hg : h.get a = some d) (hleaves : ∀ p ∈ d, ∃ l, p.2 = .leaf l) :
    reachVal h (fuel + 4) (.ref a) = [a] := by
  have hkids : ∀ (d' : Dict), (∀ p ∈ d', ∃ l, p.2 = .leaf l) →
      reachKidsAux (reachVal h (fuel + 3)) d' = [] := by
    intro d'
    induction d' with
    | nil => intro _; rfl
    | cons p rest ihd =>
        intro hd'
        obtain ⟨l, hl⟩ := hd' p (by simp)
        simp only [reachKidsAux, hl, reachVal]
        exact ihd (fun p' hp' => hd' p' (by simp [hp']))
  simp [reachVal, hg, hkids d hleaves]

/-- The addresses dereferenced when reading a collider dict through the
layout the script produces (both the template and every deep copy). -/
theorem reach_collider_layout (h : Heap) (fuel : Nat)
    (aCol aTune aQx aQy aDqx aDqy aKnobs aLev aIp2 aIp8 aBB aMask : Nat)
    (fname : String) (b1 : Leaf) (q1 q2 q3 q4 : ℚ)
    (hgCol : h.get aCol = some (colliderDictRefs aTune aLev aBB))
    (hgTune : h.get aTune = some (tuneDictRefs aQx aQy aDqx aDqy aKnobs))
    (hgQx : h.get aQx = some (tuneSubDict q1))
    (hgQy : h.get aQy = some (tuneSubDict q2))
    (hgDqx : h.get aDqx = some (tuneSubDict q3))
    (hgDqy : h.get aDqy = some (tuneSubDict q4))
    (hgKnobs : h.get aKnobs = some knobsDict)
    (hgLev : h.get aLev = some (levelingDictRefs aIp2 aIp8))
    (hgIp2 : h.get aIp2 = some ip2Dict)
    (hgIp8 : h.get aIp8 = some ip8Dict)
    (hgBB : h.get aBB = some (beambeamDictRefs aMask))
    (hgMask : h.get aMask = some (maskDict fname (.leaf b1))) :
    reachVal h (fuel + 4) (.ref aCol) =
      [aCol, aTune, aQx, aQy, aDqx, aDqy, aKnobs, aLev, aIp2, aIp8, aBB, aMask] := by
  simp [reachVal, reachKidsAux, hgCol, hgTune, hgQx, hgQy, hgDqx, hgDqy, hgKnobs,
    hgLev, hgIp2, hgIp8, hgBB, hgMask, colliderDictRefs, tuneDictRefs, tuneSubDict,
    knobsDict, levelingDictRefs, ip2Dict, ip8Dict, beambeamDictRefs, maskDict]

/-- The simulation dicts hold scalars only. -/
theorem simDictFiles_leaves (t : Nat) :
    ∀ p ∈ simDictFiles t, ∃ l : Leaf, p.2 = .leaf l := by
  intro p hp
  simp only [simDictFiles, simDict0, List.mem_append, List.mem_cons,
    List.not_mem_nil, or_false] at hp
  rcases hp with (rfl | rfl | rfl) | (rfl | rfl) <;> exact ⟨_, rfl⟩

/-- The template simulation dict keeps holding scalars only throughout the
loop. -/
theorem lastSimDict_leaves (ps : List (Nat × Int)) :
    ∀ p ∈ lastSimDict ps simDict0, ∃ l : Leaf, p.2 = .leaf l := by
  have : ∀ (d : Dict), (∀ p ∈ d, ∃ l : Leaf, p.2 = .leaf l) →
      ∀ p ∈ lastSimDict ps d, ∃ l : Leaf, p.2 = .leaf l := by
    induction ps with
    | nil => intro d hd; exact hd
    | cons q rest ihp =>
        obtain ⟨t, b⟩ := q
        intro d _
        rw [lastSimDict]
        exact ihp (simDictFiles t) (simDictFiles_leaves t)
  refine this simDict0 ?_
  intro p hp
  simp only [simDict0, List.mem_cons, List.not_mem_nil, or_false] at hp
  rcases hp with rfl | rfl | rfl <;> exact ⟨_, rfl⟩

/-- The mask's `i_bunch_b1` slot stays a scalar throughout the loop. -/
theorem lastB1_leaf (ps : List (Nat × Int)) :
    ∃ l : Leaf, lastB1 ps (.leaf .vnone) = .leaf l := by
  have : ∀ (v : Val), (∃ l : Leaf, v = .leaf l) →
      ∃ l : Leaf, lastB1 ps v = .leaf l := by
    induction ps with
    | nil => intro v hv; exact hv
    | cons q rest ihp =>
        obtain ⟨t, b⟩ := q
        intro v _
        rw [lastB1]
        exact ihp _ ⟨_, rfl⟩
  exact this _ ⟨_, rfl⟩

/-- The two config sub-values of the `i`-th child. -/
theorem finalHeap_lookup_child_config (fname : String) (bunches : List Int) (i : Nat)
    (hi : i < (jobsOf bunches).length) :
    lookupPath (finalHeap fname bunches) (.ref 22)
        ["base_collider", "children", jobId i, "config_simulation"] =
      some (.ref (23 + 14 * i)) ∧
    lookupPath (finalHeap fname bunches) (.ref 22)
        ["base_collider", "children", jobId i, "config_collider"] =
      some (.ref (23 + 14 * i + 12)) := by
  have htop := finalHeap_child_top fname bunches i hi
  constructor <;>
  · rw [show ["base_collider", "children", jobId i, _] =
      ["base_collider", "children", jobId i] ++ [_] from rfl]
    rw [lookupPath_append, finalHeap_lookup_child _ _ i hi, Option.some_bind]
    simp [lookupPath, lookupStep, htop, childTopDict, dictGet]

/-- The addresses dereferenced by the `i`-th variant's `config_simulation`
copy: only its own block's simulation cell. -/
theorem reach_child_sim (fname : String) (bunches : List Int) (i : Nat)
    (hi : i < (jobsOf bunches).length) (fuel : Nat) :
    reachVal (finalHeap fname bunches) (fuel + 4) (.ref (23 + 14 * i)) =
      [23 + 14 * i] := by
  have hg := finalHeap_get_block fname bunches i 0 hi (by omega)
  rw [show (23 + 14 * i + 0) = 23 + 14 * i from by omega] at hg
  rw [show childCellAt (23 + 14 * i) fname ((jobsOf bunches).get ⟨i, hi⟩).1
      ((jobsOf bunches).get ⟨i, hi⟩).2 0 =
    some (simDictFiles ((jobsOf bunches).get ⟨i, hi⟩).1) from rfl] at hg
  exact reach_leafDict _ fuel _ _ hg (simDictFiles_leaves _)

/-- The addresses dereferenced by the `i`-th variant's `config_collider`
copy: exactly its own block's twelve collider cells. -/
theorem reach_child_collider (fname : String) (bunches : List Int) (i : Nat)
    (hi : i < (jobsOf bunches).length) (fuel : Nat) :
    reachVal (finalHeap fname bunches) (fuel + 4) (.ref (23 + 14 * i + 12)) =
      [23 + 14 * i + 12, 23 + 14 * i + 6, 23 + 14 * i + 1, 23 + 14 * i + 2,
       23 + 14 * i + 3, 23 + 14 * i + 4, 23 + 14 * i + 5, 23 + 14 * i + 9,
       23 + 14 * i + 7, 23 + 14 * i + 8, 23 + 14 * i + 11, 23 + 14 * i + 10] := by
  have hg12 := finalHeap_get_block fname bunches i 12 hi (by omega)
  have hg6 := finalHeap_get_block fname bunches i 6 hi (by omega)
  have hg1 := finalHeap_get_block fname bunches i 1 hi (by omega)
  have hg2 := finalHeap_get_block fname bunches i 2 hi (by omega)
  have hg3 := finalHeap_get_block fname bunches i 3 hi (by omega)
  have hg4 := finalHeap_get_block fname bunches i 4 hi (by omega)
  have hg5 := finalHeap_get_block fname bunches i 5 hi (by omega)
  have hg9 := finalHeap_get_block fname bunches i 9 hi (by omega)
  have hg7 := finalHeap_get_block fname bunches i 7 hi (by omega)
  have hg8 := finalHeap_get_block fname bunches i 8 hi (by omega)
  have hg11 := finalHeap_get_block fname bunches i 11 hi (by omega)
  have hg10 := finalHeap_get_block fname bunches i 10 hi (by omega)
  exact reach_collider_layout _ fuel _ _ _ _ _ _ _ _ _ _ _ _ fname
    (.vint ((jobsOf bunches).get ⟨i, hi⟩).2) (62313/1000) (60320/1000) 5 5
    hg12 hg6 hg1 hg2 hg3 hg4 hg5 hg9 hg7 hg8 hg11 hg10

/-- The addresses dereferenced by the template `d_config_collider`: only
pre-loop cells. -/
theorem reach_template_collider (fname : String) (bunches : List Int) (fuel : Nat) :
    reachVal (finalHeap fname bunches) (fuel + 4) (.ref 16) =
      [16, 9, 5, 6, 7, 8, 10, 13, 11, 12, 15, 14] := by
  obtain ⟨l, hl⟩ := lastB1_leaf (jobsOf bunches)
  refine reach_collider_layout _ fuel 16 9 5 6 7 8 10 13 11 12 15 14 fname l
    (62313/1000) (60320/1000) 5 5 rfl rfl rfl rfl rfl rfl rfl rfl rfl rfl rfl ?_
  rw [show (finalHeap fname bunches).get 14 =
    some (maskDict fname (lastB1 (jobsOf bunches) (.leaf .vnone))) from rfl, hl]

/-- The addresses dereferenced by the template `d_config_simulation`. -/
theorem reach_template_sim (fname : String) (bunches : List Int) (fuel : Nat) :
    reachVal (finalHeap fname bunches) (fuel + 4) (.ref 17) = [17] :=
  reach_leafDict _ fuel 17 _ (finalHeap_get_17 _ _) (lastSimDict_leaves _)

/-- C1: the two config sub-trees of every job variant are fresh deep copies
made at insertion time: mutating any nested dict reachable from one
variant's `config_simulation` or `config_collider` is never observable in
any other variant's config sub-trees, nor in the template
`d_config_collider` / `d_config_simulation`. -/
theorem C1_deepcopy_isolation (path : String) (hasBeam1 hasBeam2 : Bool)
    (families : List (List Int)) (bunches : List Int) (res : ScriptResult)
    (hb : l_bunch_to_scan families = some bunches)
    (hrun : scriptRun path hasBeam1 hasBeam2 families = some res)
    (i j : Nat) (hi : i < (jobsOf bunches).length) (hj : j < (jobsOf bunches).length)
    (hij : i ≠ j) (keyi keyj : String)
    (hki : keyi = "config_simulation" ∨ keyi = "config_collider")
    (hkj : keyj = "config_simulation" ∨ keyj = "config_collider")
    (vi vj : Val)
    (hvi : lookupPath res.heap (.ref res.aChildren)
      ["base_collider", "children", jobId i, keyi] = some vi)
    (hvj : lookupPath res.heap (.ref res.aChildren)
      ["base_collider", "children", jobId j, keyj] = some vj) :
    ∀ a ∈ reachVal res.heap res.heap.next vi,
      a ∉ reachVal res.heap res.heap.next vj ∧
      ∀ (key : String) (w : Val),
        readVal (res.heap.set a key w) res.heap.next vj =
          readVal res.heap res.heap.next vj ∧
        readVal (res.heap.set a key w) res.heap.next (.ref res.aCollider) =
          readVal res.heap res.heap.next (.ref res.aCollider) ∧
        readVal (res.heap.set a key w) res.heap.next (.ref res.aSim) =
          readVal res.heap res.heap.next (.ref res.aSim) := by
  have hspec := scriptRun_spec path hasBeam1 hasBeam2 families bunches hb
  rw [hrun] at hspec
  obtain rfl := Option.some.inj hspec
  dsimp only at hvi hvj ⊢
  have hnext : (finalHeap (patternFname path hasBeam1 hasBeam2) bunches).next =
      23 + 14 * (jobsOf bunches).length := rfl
  obtain ⟨k4, hk4⟩ : ∃ k, 23 + 14 * (jobsOf bunches).length = k + 4 :=
    ⟨23 + 14 * (jobsOf bunches).length - 4, by omega⟩
  rw [hnext, hk4]
  have hconfi := finalHeap_lookup_child_config (patternFname path hasBeam1 hasBeam2)
    bunches i hi
  have hconfj := finalHeap_lookup_child_config (patternFname path hasBeam1 hasBeam2)
    bunches j hj
  have hbi : ∀ a ∈ reachVal (finalHeap (patternFname path hasBeam1 hasBeam2) bunches)
      (k4 + 4) vi, 23 + 14 * i ≤ a ∧ a ≤ 23 + 14 * i + 12 := by
    rcases hki with rfl | rfl
    · rw [hconfi.1] at hvi
      obtain rfl := Option.some.inj hvi
      intro a ha
      rw [reach_child_sim _ _ i hi] at ha
      simp only [List.mem_singleton] at ha
      omega
    · rw [hconfi.2] at hvi
      obtain rfl := Option.some.inj hvi
      intro a ha
      rw [reach_child_collider _ _ i hi] at ha
      simp only [List.mem_cons, List.not_mem_nil, or_false] at ha
      rcases ha with rfl | rfl | rfl | rfl | rfl | rfl | rfl | rfl | rfl | rfl | rfl | rfl <;>
        omega
  have hbj : ∀ a, 23 ≤ a → (a < 23 + 14 * j ∨ 23 + 14 * j + 13 < a) →
      a ∉ reachVal (finalHeap (patternFname path hasBeam1 hasBeam2) bunches)
        (k4 + 4) vj := by
    rcases hkj with rfl | rfl
    · rw [hconfj.1] at hvj
      obtain rfl := Option.some.inj hvj
      intro a _ hrange
      rw [reach_child_sim _ _ j hj]
      simp only [List.mem_singleton]
      omega
    · rw [hconfj.2] at hvj
      obtain rfl := Option.some.inj hvj
      intro a _ hrange
      rw [reach_child_collider _ _ j hj]
      simp only [List.mem_cons, List.not_mem_nil, or_false]
      push_neg
      refine ⟨?_, ?_, ?_, ?_, ?_, ?_, ?_, ?_, ?_, ?_, ?_, ?_⟩ <;> omega
  intro a ha
  have hab := hbi a ha
  have hout : a ∉ reachVal (finalHeap (patternFname path hasBeam1 hasBeam2) bunches)
      (k4 + 4) vj := by
    apply hbj a (by omega)
    rcases Nat.lt_or_ge i j with hlt | hge
    · left; omega
    · have : j < i := by omega
      right; omega
  refine ⟨hout, fun key w => ⟨readVal_set_outside _ _ _ _ _ _ hout, ?_, ?_⟩⟩
  · apply readVal_set_outside
    rw [reach_template_collider]
    simp only [List.mem_cons, List.not_mem_nil, or_false]
    push_neg
    refine ⟨?_, ?_, ?_, ?_, ?_, ?_, ?_, ?_, ?_, ?_, ?_, ?_⟩ <;> omega
  · apply readVal_set_outside
    rw [reach_template_sim]
    simp only [List.mem_singleton]
    omega

/-! ## Witnesses: the claim theorems applied at concrete inputs -/

/-- The concrete run (both beams configured, one bunch family `[5]`) used by
the witnesses below. -/
theorem scriptRun_afs :
    scriptRun "/afs/scheme.json" true true [[5]] =
      some ⟨finalHeap (patternFname "/afs/scheme.json" true true) [5], 0, 4, 16, 17, 22⟩ :=
  scriptRun_spec "/afs/scheme.json" true true [[5]] [5] rfl

/-- The concrete run with only beam 1 configured, so the filling-scheme path
is rewritten to its `_converted.json` sibling. -/
theorem scriptRun_xconv :
    scriptRun "/x/scheme.json" true false [[5]] =
      some ⟨finalHeap (patternFname "/x/scheme.json" true false) [5], 0, 4, 16, 17, 22⟩ :=
  scriptRun_spec "/x/scheme.json" true false [[5]] [5] rfl

/-- C1 witness: with one family `[5]`, mutating the simulation cell of
variant 0 is invisible to variant 1 and to the template. -/
theorem C1_deepcopy_isolation_witness :
    (23 ∉ reachVal (finalHeap (patternFname "/afs/scheme.json" true true) [5])
        (finalHeap (patternFname "/afs/scheme.json" true true) [5]).next (.ref 37)) ∧
    readVal ((finalHeap (patternFname "/afs/scheme.json" true true) [5]).set 23 "beam"
          (.leaf (.vint 9)))
        (finalHeap (patternFname "/afs/scheme.json" true true) [5]).next (.ref 37) =
      readVal (finalHeap (patternFname "/afs/scheme.json" true true) [5])
        (finalHeap (patternFname "/afs/scheme.json" true true) [5]).next (.ref 37) ∧
    readVal ((finalHeap (patternFname "/afs/scheme.json" true true) [5]).set 23 "beam"
          (.leaf (.vint 9)))
        (finalHeap (patternFname "/afs/scheme.json" true true) [5]).next (.ref 16) =
      readVal (finalHeap (patternFname "/afs/scheme.json" true true) [5])
        (finalHeap (patternFname "/afs/scheme.json" true true) [5]).next (.ref 16) ∧
    readVal ((finalHeap (patternFname "/afs/scheme.json" true true) [5]).set 23 "beam"
          (.leaf (.vint 9)))
        (finalHeap (patternFname "/afs/scheme.json" true true) [5]).next (.ref 17) =
      readVal (finalHeap (patternFname "/afs/scheme.json" true true) [5])
        (finalHeap (patternFname "/afs/scheme.json" true true) [5]).next (.ref 17) := by
  have h := C1_deepcopy_isolation "/afs/scheme.json" true true [[5]] [5]
    ⟨finalHeap (patternFname "/afs/scheme.json" true true) [5], 0, 4, 16, 17, 22⟩
    rfl scriptRun_afs 0 1 (by decide) (by decide) (by decide)
    "config_simulation" "config_simulation" (Or.inl rfl) (Or.inl rfl)
    (.ref 23) (.ref 37) rfl rfl
  have h23 := h 23 (by decide)
  exact ⟨h23.1, (h23.2 "beam" (.leaf (.vint 9))).1,
    (h23.2 "beam" (.leaf (.vint 9))).2.1, (h23.2 "beam" (.leaf (.vint 9))).2.2⟩

/-- C2 witness: one family gives 8 * 1 variants. -/
theorem C2_variant_count_witness :
    (jobChildrenDict ⟨finalHeap (patternFname "/afs/scheme.json" true true) [5],
        0, 4, 16, 17, 22⟩).map List.length = some 8 ∧
    dictGet particlesDict "n_split" = some (.leaf (.vint 8)) :=
  C2_variant_count "/afs/scheme.json" true true [[5]] [5] _ (by decide) rfl scriptRun_afs

/-- C3 witness: identifiers of the 8 variants of one family. -/
theorem C3_job_identifiers_witness :
    (∃ kids : Dict,
      jobChildrenDict ⟨finalHeap (patternFname "/afs/scheme.json" true true) [5],
        0, 4, 16, 17, 22⟩ = some kids ∧
      kids.map Prod.fst = (List.range 8).map jobId) ∧
    (∀ m n : Nat, jobId m = jobId n → m = n) ∧
    (∀ n : Nat, jobId n = "xtrack_" ++ pyFormatZeroPad 4 n ∧
      decVal (pyFormatZeroPad 4 n).data = n) ∧
    pyProduct [0, 1] ([100, 200, 300] : List Int) =
      [(0, 100), (0, 200), (0, 300), (1, 100), (1, 200), (1, 300)] :=
  C3_job_identifiers "/afs/scheme.json" true true [[5]] [5] _ (by decide) rfl scriptRun_afs

/-- C4 witness: variant 2 (split value 2) stores `../particles/02.parquet`. -/
theorem C4_particle_file_per_split_witness :
    lookupPath (finalHeap (patternFname "/afs/scheme.json" true true) [5]) (.ref 22)
        ["base_collider", "children", jobId 2, "config_simulation", "particle_file"] =
      some (.leaf (.vstr (particleFileName 2))) ∧
    particleFileName 3 = "../particles/03.parquet" := by
  have h := C4_particle_file_per_split "/afs/scheme.json" true true [[5]] [5]
    ⟨finalHeap (patternFname "/afs/scheme.json" true true) [5], 0, 4, 16, 17, 22⟩
    rfl scriptRun_afs
  exact ⟨h.1 2 (by decide), h.2⟩

/-- C6 witness: the reply `maybe` re-prompts; `y` and `n` resolve. -/
theorem C6_prompt_loop_witness :
    promptLoopB1 7 ("maybe" :: ["y"]) = promptLoopB1 7 ["y"] ∧
    promptLoopB1 7 ("y" :: ["y"]) = .ok 7 ["y"] ∧
    (∀ (s : String) (v : Int), pyInt s = some v →
      promptLoopB1 7 ("n" :: s :: ["y"]) = .ok v ["y"]) :=
  C6_prompt_loop 7 "maybe" ["y"] (by decide) (by decide)

/-- C8 witness: a path with `.json` occurring only as its suffix. -/
theorem C8_pattern_fname_witness :
    (patternFname "/x/scheme.json" true false =
      (if true && false then "/x/scheme.json"
       else String.mk ("/x/scheme".data ++ "_converted.json".data))) ∧
    (∀ (i : Nat), i < (jobsOf [5]).length →
      lookupPath (finalHeap (patternFname "/x/scheme.json" true false) [5]) (.ref 22)
          ["base_collider", "children", jobId i, "config_collider", "config_beambeam",
           "mask_with_filling_pattern", "pattern_fname"] =
        some (.leaf (.vstr (patternFname "/x/scheme.json" true false)))) :=
  C8_pattern_fname "/x/scheme.json" "/x/scheme".data true false [[5]] [5]
    ⟨finalHeap (patternFname "/x/scheme.json" true false) [5], 0, 4, 16, 17, 22⟩
    (by decide) (by decide) rfl scriptRun_xconv

/-- C9 witness: variant 1's `i_bunch_b2` is 1144, and `pattern_fname` reads
identically in variants 0 and 1. -/
theorem C9_i_bunch_b2_fixed_witness :
    lookupPath (finalHeap (patternFname "/afs/scheme.json" true true) [5]) (.ref 22)
        ["base_collider", "children", jobId 1, "config_collider", "config_beambeam",
         "mask_with_filling_pattern", "i_bunch_b2"] = some (.leaf (.vint 1144)) ∧
    lookupPath (finalHeap (patternFname "/afs/scheme.json" true true) [5]) (.ref 22)
        ["base_collider", "children", jobId 0, "config_collider", "config_beambeam",
         "mask_with_filling_pattern", "pattern_fname"] =
      lookupPath (finalHeap (patternFname "/afs/scheme.json" true true) [5]) (.ref 22)
        ["base_collider", "children", jobId 1, "config_collider", "config_beambeam",
         "mask_with_filling_pattern", "pattern_fname"] := by
  have h := C9_i_bunch_b2_fixed "/afs/scheme.json" true true [[5]] [5]
    ⟨finalHeap (patternFname "/afs/scheme.json" true true) [5], 0, 4, 16, 17, 22⟩
    rfl scriptRun_afs
  exact ⟨h.1 1 (by decide), h.2 0 1 (by decide) (by decide) "pattern_fname" (by decide)⟩

/-- C10 witness: the generation-1 node aliases the template dicts, and a
template mutation is visible through it. -/
theorem C10_gen1_shared_refs_witness :
    (∃ base : Dict,
      lookupPath (finalHeap (patternFname "/afs/scheme.json" true true) [5]) (.ref 22)
        ["base_collider"] = some (.ref 21) ∧
      (finalHeap (patternFname "/afs/scheme.json" true true) [5]).get 21 = some base ∧
      dictGet base "config_particles" = some (.ref 0) ∧
      dictGet base "config_mad" = some (.ref 4)) ∧
    (∀ v : Val,
      lookupPath ((finalHeap (patternFname "/afs/scheme.json" true true) [5]).set 0
          "r_min" v) (.ref 22)
        ["base_collider", "config_particles", "r_min"] = some v) ∧
    (∀ v : Val,
      lookupPath ((finalHeap (patternFname "/afs/scheme.json" true true) [5]).set 4
          "optics_file" v) (.ref 22)
        ["base_collider", "config_mad", "optics_file"] = some v) :=
  C10_gen1_shared_refs "/afs/scheme.json" true true [[5]] [5]
    ⟨finalHeap (patternFname "/afs/scheme.json" true true) [5], 0, 4, 16, 17, 22⟩
    rfl scriptRun_afs

end MakeFolders
